import Mathlib

/-
  Verification development for the loxide expression pipeline:
  a shallow embedding of the lexical scanner (src/frontend/lex/scanner.rs),
  the recursive-descent parser (src/frontend/parse/recursive_descent.rs),
  the tree-walk evaluator (src/frontend/parse/tree_walk_interpreter.rs)
  and the driving pipeline (src/frontend/mod.rs), together with theorems
  about the claims of the specification.

  Modelling conventions:
  - Source text is a list of characters.  All inputs exercised here are
    ASCII, where Unicode grapheme clusters, code points and bytes coincide,
    so grapheme indices are modelled as character indices.
  - 64-bit floats are modelled as exact rationals.  Every numeric instance
    appearing in the claims is exactly representable, and no claim depends
    on rounding, NaN or signed zero.
  - Recursion that Rust expresses as loops over an iterator is expressed
    with an explicit fuel parameter so that every definition is a plain
    structural recursion the kernel can evaluate.  Fuel is always chosen
    large enough that it never runs out on the executions the theorems
    talk about, and universally quantified theorems quantify over fuel.
-/

/-- Token kinds, mirroring enum TokenType in src/frontend/lex/token.rs. -/
inductive TokenType where
  | LeftParen | RightParen | LeftBrace | RightBrace
  | Comma | Dot | Minus | Plus | Semicolon | Slash | Star
  | QuestionMark | Colon
  | Bang | BangEqual | Equal | EqualEqual
  | Greater | GreaterEqual | Less | LessEqual
  | Identifier | String | Number
  | And | Class | Else | False | Fun | For | If | Nil | Or
  | Print | Return | Super | This | True | Var | While
  | Eof
  deriving DecidableEq, Repr

/-- Runtime literal values, mirroring enum Literal in src/frontend/lex/token.rs.
    Number payloads are modelled as exact rationals. -/
inductive Literal where
  | Identifier (s : String)
  | String (s : String)
  | Number (n : ℚ)
  | Boolean (b : Bool)
  deriving DecidableEq, Repr

/-- Mirrors struct Token in src/frontend/lex/token.rs. -/
structure Token where
  token_type : TokenType
  lexeme : String
  literal : Option Literal
  line_number : Nat
  deriving DecidableEq, Repr

/-- Mirrors struct LoxErrorReport in src/frontend/error_report.rs. -/
structure LoxErrorReport where
  line_number : Nat
  location : String
  message : String
  deriving DecidableEq, Repr

/-- Mirrors enum PossibleToken in src/frontend/lex/scanner.rs. -/
inductive PossibleToken where
  | ok (t : Token)
  | err (e : LoxErrorReport)
  deriving DecidableEq, Repr

/-- The keyword table KEYWORDS of src/frontend/lex/token.rs as an
    association list. -/
def keywords : List (String × TokenType) :=
  [("and", TokenType.And), ("class", TokenType.Class), ("else", TokenType.Else),
   ("false", TokenType.False), ("for", TokenType.For), ("fun", TokenType.Fun),
   ("if", TokenType.If), ("nil", TokenType.Nil), ("or", TokenType.Or),
   ("print", TokenType.Print), ("return", TokenType.Return),
   ("super", TokenType.Super), ("this", TokenType.This),
   ("true", TokenType.True), ("var", TokenType.Var), ("while", TokenType.While)]

/-- KEYWORDS.get(..).unwrap_or(&Identifier) from parse_identifier. -/
def keywordLookup (s : String) : TokenType :=
  (keywords.lookup s).getD TokenType.Identifier

/-- Mirrors fn is_digit of scanner.rs (first char is an ASCII digit). -/
def isDigitG (c : Char) : Bool := c.isDigit

/-- Mirrors fn is_alpha of scanner.rs.  Rust tests Unicode alphabetic;
    the model uses ASCII alphabetic, which agrees on every input the
    claims mention. -/
def isAlphaG (c : Char) : Bool := c.isAlpha || c = '_'

/-- Mirrors fn is_alphanumeric of scanner.rs. -/
def isAlphanumericG (c : Char) : Bool := c.isAlpha || c.isDigit || c = '_'

/-- Core loop of Scanner::parse_string (scanner.rs).  Takes the characters
    after the opening quote and the current line counter; returns the
    content between the quotes when a closing quote is found (none when
    end of input is reached first), the number of characters consumed and
    the line counter after the call (newlines inside the string increment
    it). -/
def parseStringCore : List Char → Nat → Option (List Char) × Nat × Nat
  | [], line => (none, 0, line)
  | c :: rest, line =>
    if c = '"' then (some [], 1, line)
    else
      let line1 := if c = '\n' then line + 1 else line
      let (res, k, line2) := parseStringCore rest line1
      (res.map fun cs => c :: cs, k + 1, line2)

/-- Peeking loop of Scanner::parse_number (scanner.rs).  Takes the
    characters after the first digit and the has_decimal flag; returns the
    further characters consumed into the number and their count.  A second
    decimal point, or any non-digit other than a first decimal point,
    stops consumption. -/
def parseNumberCore : List Char → Bool → List Char × Nat
  | [], _ => ([], 0)
  | c :: rest, hasDecimal =>
    if c = '.' then
      if hasDecimal then ([], 0)
      else
        let (cs, k) := parseNumberCore rest true
        (c :: cs, k + 1)
    else if isDigitG c then
      let (cs, k) := parseNumberCore rest hasDecimal
      (c :: cs, k + 1)
    else ([], 0)

/-- Peeking loop of Scanner::parse_identifier (scanner.rs). -/
def parseIdentCore : List Char → List Char × Nat
  | [] => ([], 0)
  | c :: rest =>
    if isAlphanumericG c then
      let (cs, k) := parseIdentCore rest
      (c :: cs, k + 1)
    else ([], 0)

/-- Length of a line comment body: scanner.rs consumes characters while
    the next one is not a newline, leaving the newline unconsumed. -/
def lineCommentLen : List Char → Nat
  | [] => 0
  | c :: rest => if c = '\n' then 0 else 1 + lineCommentLen rest

/-- Number of characters consumed by the block-comment loop of scanner.rs,
    tracking nesting depth; consumption stops when depth returns to zero
    or at end of input. -/
def blockCommentLen : List Char → Nat → Nat
  | [], _ => 0
  | '*' :: '/' :: rest2, depth =>
    if depth = 1 then 2 else 2 + blockCommentLen rest2 (depth - 1)
  | '/' :: '*' :: rest2, depth => 2 + blockCommentLen rest2 (depth + 1)
  | _ :: rest, depth => 1 + blockCommentLen rest depth

/-- Value of a list of ASCII digits. -/
def digitsVal (l : List Char) : Nat := l.foldl (fun n c => 10 * n + (c.toNat - 48)) 0

/-- Splits a character list at the first decimal point, if any. -/
def splitAtDot : List Char → List Char × Option (List Char)
  | [] => ([], none)
  | c :: rest =>
    if c = '.' then ([], some rest)
    else
      let (a, b) := splitAtDot rest
      (c :: a, b)

/-- Models str::parse for f64 on the decimal shapes the scanner and
    parser feed it (digits with at most one decimal point): the exact
    rational value, or none when the text is not a decimal number. -/
def parseNumberLit (s : String) : Option ℚ :=
  let (ip, fp) := splitAtDot s.data
  match fp with
  | none =>
    if !ip.isEmpty && ip.all isDigitG then some (digitsVal ip) else none
  | some f =>
    if (ip.all isDigitG && f.all isDigitG) && (!ip.isEmpty || !f.isEmpty) then
      some ((digitsVal ip : ℚ) + (digitsVal f : ℚ) / (10 : ℚ) ^ f.length)
    else none

/-- The synthetic end-of-input token pushed after the scan loop. -/
def eofToken (line : Nat) : Token := ⟨TokenType.Eof, "", none, line⟩

def unterminatedMsg (line idx : Nat) : String :=
  "Unterminated string at line " ++ Nat.repr line ++ " pos " ++ Nat.repr idx

def invalidNumberMsg (line idx : Nat) : String :=
  "Invalid number at line " ++ Nat.repr line ++ " pos " ++ Nat.repr idx

def invalidTokenMsg (line idx : Nat) (c : Char) : String :=
  "Invalid token at line " ++ Nat.repr line ++ " pos " ++ Nat.repr idx ++ ": "
    ++ String.mk [c]

/-- The ten single-character match arms of Scanner::scan_tokens, as a
    table from character to token kind. -/
def single_char_token (c : Char) : Option TokenType :=
  if c = '(' then some TokenType.LeftParen
  else if c = ')' then some TokenType.RightParen
  else if c = '{' then some TokenType.LeftBrace
  else if c = '}' then some TokenType.RightBrace
  else if c = ',' then some TokenType.Comma
  else if c = '.' then some TokenType.Dot
  else if c = '-' then some TokenType.Minus
  else if c = '+' then some TokenType.Plus
  else if c = ';' then some TokenType.Semicolon
  else if c = '*' then some TokenType.Star
  else none

/-- The add_if_next_matches closure of Scanner::scan_tokens: if the next
    character equals the expected one, consume it and emit the two
    character token, else emit the one character token.  Returns the
    emitted token, the remaining characters and the number of characters
    consumed including the current one. -/
def add_if_next_matches (expected : Char) (on_true on_false : TokenType)
    (c : Char) (rest : List Char) (line : Nat) :
    List PossibleToken × List Char × Nat :=
  match rest with
  | r0 :: rest2 =>
    if r0 = expected then
      ([PossibleToken.ok ⟨on_true, String.mk [c, r0], none, line⟩], rest2, 2)
    else ([PossibleToken.ok ⟨on_false, String.mk [c], none, line⟩], rest, 1)
  | [] => ([PossibleToken.ok ⟨on_false, String.mk [c], none, line⟩], rest, 1)

/-- The slash arm of Scanner::scan_tokens: a line comment (consumed to
    the newline, which stays unconsumed; the line counter is incremented
    as in the source), a block comment with explicit nesting depth, or a
    Slash token.  Returns emitted tokens, remaining characters, consumed
    count and new line counter. -/
def slash_arm (c : Char) (rest : List Char) (line : Nat) :
    List PossibleToken × List Char × Nat × Nat :=
  match rest with
  | '/' :: rest2 =>
    let k := lineCommentLen rest2
    ([], rest2.drop k, 2 + k, line + 1)
  | '*' :: rest2 =>
    let k := blockCommentLen rest2 1
    ([], rest2.drop k, 2 + k, line)
  | _ => ([PossibleToken.ok ⟨TokenType.Slash, String.mk [c], none, line⟩], rest, 1, line)

/-- The string arm of Scanner::scan_tokens: a String token whose lexeme
    and literal are the content between the quotes, or the unterminated
    string lexical error tagged with the current line counter (after the
    newlines inside the string) and the position of the opening quote. -/
def string_arm (rest : List Char) (idx line : Nat) :
    List PossibleToken × List Char × Nat × Nat :=
  match parseStringCore rest line with
  | (some cs, k, line2) =>
    ([PossibleToken.ok ⟨TokenType.String, String.mk cs,
        some (Literal.String (String.mk cs)), line2⟩], rest.drop k, 1 + k, line2)
  | (none, k, line2) =>
    ([PossibleToken.err ⟨line2, "", unterminatedMsg line2 idx⟩], rest.drop k, 1 + k, line2)

/-- The number arm of Scanner::scan_tokens: consume digits with at most
    one decimal point, then re-parse the lexeme; an unparseable lexeme
    (unreachable for the shapes the loop produces) is the invalid number
    lexical error. -/
def number_arm (c : Char) (rest : List Char) (idx line : Nat) :
    List PossibleToken × List Char × Nat :=
  let (cs, k) := parseNumberCore rest false
  ((match parseNumberLit (String.mk (c :: cs)) with
    | some q =>
      [PossibleToken.ok ⟨TokenType.Number, String.mk (c :: cs),
        some (Literal.Number q), line⟩]
    | none => [PossibleToken.err ⟨line, "", invalidNumberMsg line idx⟩]),
    rest.drop k, 1 + k)

/-- The identifier arm of Scanner::scan_tokens: consume alphanumerics,
    look the text up in the keyword table (an Identifier token on a
    miss); the literal payload is the Identifier text either way. -/
def identifier_arm (c : Char) (rest : List Char) (line : Nat) :
    List PossibleToken × List Char × Nat :=
  let (cs, k) := parseIdentCore rest
  let text := String.mk (c :: cs)
  ([PossibleToken.ok ⟨keywordLookup text, text, some (Literal.Identifier text), line⟩],
    rest.drop k, 1 + k)

/-- One iteration of the while-let loop of Scanner::scan_tokens
    (scanner.rs): the match on the current grapheme.  Takes the current
    character, the remaining characters, the index of the current
    character and the line counter; returns the emitted token or lexical
    error (empty for whitespace, newlines and comments), the characters
    left after the iteration, and the updated index and line counter. -/
def scanStep (c : Char) (rest : List Char) (idx line : Nat) :
    List PossibleToken × List Char × Nat × Nat :=
  match single_char_token c with
  | some tt =>
    ([PossibleToken.ok ⟨tt, String.mk [c], none, line⟩], rest, idx + 1, line)
  | none =>
    if c = '!' then
      let (out, rest2, k) := add_if_next_matches '=' TokenType.BangEqual TokenType.Bang c rest line
      (out, rest2, idx + k, line)
    else if c = '=' then
      let (out, rest2, k) := add_if_next_matches '=' TokenType.EqualEqual TokenType.Equal c rest line
      (out, rest2, idx + k, line)
    else if c = '<' then
      let (out, rest2, k) := add_if_next_matches '=' TokenType.LessEqual TokenType.Less c rest line
      (out, rest2, idx + k, line)
    else if c = '>' then
      let (out, rest2, k) := add_if_next_matches '=' TokenType.GreaterEqual TokenType.Greater c rest line
      (out, rest2, idx + k, line)
    else if c = '/' then
      let (out, rest2, k, line2) := slash_arm c rest line
      (out, rest2, idx + k, line2)
    else if c = ' ' ∨ c = '\r' ∨ c = '\t' then
      ([], rest, idx + 1, line)
    else if c = '\n' then
      ([], rest, idx + 1, line + 1)
    else if c = '"' then
      let (out, rest2, k, line2) := string_arm rest idx line
      (out, rest2, idx + k, line2)
    else if isDigitG c then
      let (out, rest2, k) := number_arm c rest idx line
      (out, rest2, idx + k, line)
    else if isAlphaG c then
      let (out, rest2, k) := identifier_arm c rest line
      (out, rest2, idx + k, line)
    else
      ([PossibleToken.err ⟨line, "", invalidTokenMsg line idx c⟩], rest, idx + 1, line)

/-- The while-let loop of Scanner::scan_tokens (scanner.rs): one scanStep
    per iteration, with a fuel counter decremented once per iteration
    (each iteration consumes at least one character, so source length + 1
    never runs out).  The end-of-input token is appended when the input
    is exhausted, carrying the final line, exactly as in the source. -/
def scanLoop : Nat → List Char → Nat → Nat → List PossibleToken
  | _, [], _, line => [PossibleToken.ok (eofToken line)]
  | 0, _ :: _, _, _ => []
  | fuel + 1, c :: rest, idx, line =>
    let (out, rest2, idx2, line2) := scanStep c rest idx line
    out ++ scanLoop fuel rest2 idx2 line2

/-- Scanner::scan_tokens (scanner.rs): scan from index 0, line 0. -/
def scanTokens (s : String) : List PossibleToken :=
  scanLoop (s.data.length + 1) s.data 0 0

/-- Expression trees, mirroring the enum the parser builds and the
    interpreter consumes (Binary, Grouping, Literal, Unary, Ternary). -/
inductive Expression where
  | Binary (left : Expression) (operator : Token) (right : Expression)
  | Grouping (inner : Expression)
  | Literal (value : Option Literal)
  | Unary (operator : Token) (right : Expression)
  | Ternary (condition then_branch else_branch : Expression)
  deriving DecidableEq, Repr

/-- Mirrors struct ParseError in src/frontend/parse/recursive_descent.rs. -/
structure ParseError where
  token : Token
  message : String
  deriving DecidableEq, Repr

/-- A parse outcome: the parsed expression together with the parser
    position after it, or a parse error. -/
abbrev ParseOut := Except ParseError (Expression × Nat)

/-- Parser::peek: tokens[current].  Out-of-range access (a panic in Rust,
    unreachable on scanner output, which always ends with an end-of-input
    token) is modelled as an end-of-input token. -/
def peekT (ts : List Token) (i : Nat) : Token := ts.getD i (eofToken 0)

/-- Parser::is_at_end. -/
def isAtEndT (ts : List Token) (i : Nat) : Bool :=
  (peekT ts i).token_type = TokenType.Eof

/-- Parser::check_next. -/
def checkNextT (ts : List Token) (i : Nat) (tt : TokenType) : Bool :=
  if isAtEndT ts i then false else (peekT ts i).token_type = tt

/-- Parser::get_previous: tokens[current - 1]. -/
def getPreviousT (ts : List Token) (i : Nat) : Token := ts.getD (i - 1) (eofToken 0)

/-- Parser::next_matches: if any of the given kinds is next, advance;
    returns whether a kind matched and the new position. -/
def nextMatchesT (ts : List Token) (i : Nat) (tts : List TokenType) : Bool × Nat :=
  if tts.any (fun tt => checkNextT ts i tt) then (true, i + 1) else (false, i)

/-- Parser::consume. -/
def consumeT (ts : List Token) (i : Nat) (tt : TokenType) (msg : String) :
    Except ParseError Nat :=
  if checkNextT ts i tt then Except.ok (i + 1) else Except.error ⟨peekT ts i, msg⟩

/-- Error produced only when parser fuel runs out; never reached for the
    fuel budgets used below. -/
def fuelOutError : ParseError := ⟨eofToken 0, "parser fuel exhausted"⟩

/-- The while loop of Parser::create_left_associative_binary_expression:
    as long as one of the operator kinds is next, parse the next-higher
    rule and fold the results into left-nested Binary nodes. -/
def leftAssocLoop (next : List Token → Nat → ParseOut) (tts : List TokenType)
    (ts : List Token) : Nat → Expression → Nat → ParseOut
  | 0, _, _ => Except.error fuelOutError
  | fuel + 1, expr, i =>
    match nextMatchesT ts i tts with
    | (false, _) => Except.ok (expr, i)
    | (true, i1) =>
      let op := getPreviousT ts i1
      match next ts i1 with
      | Except.error e => Except.error e
      | Except.ok (right, i2) =>
        leftAssocLoop next tts ts fuel (Expression.Binary expr op right) i2

/-- Parser::create_left_associative_binary_expression. -/
def create_left_associative_binary_expression (tts : List TokenType)
    (next : List Token → Nat → ParseOut) (ts : List Token) (fuel i : Nat) : ParseOut :=
  match next ts i with
  | Except.error e => Except.error e
  | Except.ok (expr, i1) => leftAssocLoop next tts ts fuel expr i1

mutual

/-- Parser::expression: delegates to comma. -/
def expressionF : Nat → List Token → Nat → ParseOut
  | 0, _, _ => Except.error fuelOutError
  | fuel + 1, ts, i => commaF fuel ts i

termination_by structural fuel => fuel

/-- Parser::comma. -/
def commaF : Nat → List Token → Nat → ParseOut
  | 0, _, _ => Except.error fuelOutError
  | fuel + 1, ts, i =>
    create_left_associative_binary_expression [TokenType.Comma]
      (fun ts2 i2 => ternaryF fuel ts2 i2) ts fuel i

termination_by structural fuel => fuel

/-- Parser::ternary: an equality, optionally followed by a question mark,
    a full expression, a colon and a full expression. -/
def ternaryF : Nat → List Token → Nat → ParseOut
  | 0, _, _ => Except.error fuelOutError
  | fuel + 1, ts, i =>
    match equalityF fuel ts i with
    | Except.error e => Except.error e
    | Except.ok (expr, i1) =>
      match nextMatchesT ts i1 [TokenType.QuestionMark] with
      | (false, _) => Except.ok (expr, i1)
      | (true, i2) =>
        match expressionF fuel ts i2 with
        | Except.error e => Except.error e
        | Except.ok (thenB, i3) =>
          match consumeT ts i3 TokenType.Colon
              "Expected \x27:\x27 after then branch" with
          | Except.error e => Except.error e
          | Except.ok i4 =>
            match expressionF fuel ts i4 with
            | Except.error e => Except.error e
            | Except.ok (elseB, i5) =>
              Except.ok (Expression.Ternary expr thenB elseB, i5)

termination_by structural fuel => fuel

/-- Parser::equality. -/
def equalityF : Nat → List Token → Nat → ParseOut
  | 0, _, _ => Except.error fuelOutError
  | fuel + 1, ts, i =>
    create_left_associative_binary_expression
      [TokenType.BangEqual, TokenType.EqualEqual]
      (fun ts2 i2 => comparisonF fuel ts2 i2) ts fuel i

termination_by structural fuel => fuel

/-- Parser::comparison. -/
def comparisonF : Nat → List Token → Nat → ParseOut
  | 0, _, _ => Except.error fuelOutError
  | fuel + 1, ts, i =>
    create_left_associative_binary_expression
      [TokenType.Greater, TokenType.GreaterEqual, TokenType.Less, TokenType.LessEqual]
      (fun ts2 i2 => termF fuel ts2 i2) ts fuel i

termination_by structural fuel => fuel

/-- Parser::term. -/
def termF : Nat → List Token → Nat → ParseOut
  | 0, _, _ => Except.error fuelOutError
  | fuel + 1, ts, i =>
    create_left_associative_binary_expression
      [TokenType.Minus, TokenType.Plus]
      (fun ts2 i2 => factorF fuel ts2 i2) ts fuel i

termination_by structural fuel => fuel

/-- Parser::factor. -/
def factorF : Nat → List Token → Nat → ParseOut
  | 0, _, _ => Except.error fuelOutError
  | fuel + 1, ts, i =>
    create_left_associative_binary_expression
      [TokenType.Slash, TokenType.Star]
      (fun ts2 i2 => unaryF fuel ts2 i2) ts fuel i

termination_by structural fuel => fuel

/-- Parser::unary. -/
def unaryF : Nat → List Token → Nat → ParseOut
  | 0, _, _ => Except.error fuelOutError
  | fuel + 1, ts, i =>
    match nextMatchesT ts i [TokenType.Bang, TokenType.Minus] with
    | (true, i1) =>
      let op := getPreviousT ts i1
      match unaryF fuel ts i1 with
      | Except.error e => Except.error e
      | Except.ok (right, i2) => Except.ok (Expression.Unary op right, i2)
    | (false, _) => primaryF fuel ts i

termination_by structural fuel => fuel

/-- Parser::primary.  The Number arm re-parses the lexeme text, as the
    source does; the unwrap panic on an unparseable lexeme (unreachable
    for scanner-produced tokens) is modelled as a parse error. -/
def primaryF : Nat → List Token → Nat → ParseOut
  | 0, _, _ => Except.error fuelOutError
  | fuel + 1, ts, i =>
    let t := peekT ts i
    match t.token_type with
    | TokenType.False => Except.ok (Expression.Literal (some (Literal.Boolean false)), i + 1)
    | TokenType.True => Except.ok (Expression.Literal (some (Literal.Boolean true)), i + 1)
    | TokenType.Nil => Except.ok (Expression.Literal none, i + 1)
    | TokenType.Number =>
      match parseNumberLit t.lexeme with
      | some q => Except.ok (Expression.Literal (some (Literal.Number q)), i + 1)
      | none => Except.error ⟨t, "panic: lexeme is not a number"⟩
    | TokenType.String =>
      Except.ok (Expression.Literal (some (Literal.String t.lexeme)), i + 1)
    | TokenType.LeftParen =>
      match expressionF fuel ts (i + 1) with
      | Except.error e => Except.error e
      | Except.ok (expr, i1) =>
        match consumeT ts i1 TokenType.RightParen
            "Expect \x27)\x27 after expression." with
        | Except.error e => Except.error e
        | Except.ok i2 => Except.ok (Expression.Grouping expr, i2)
    | _ => Except.error ⟨t, "Expect expression."⟩

termination_by structural fuel => fuel
end

/-- Fuel budget for a whole parse: ample for any token list, since each
    grammar level consumes one fuel unit and every re-entry into the
    expression rule first consumes at least one token. -/
def parseFuel (ts : List Token) : Nat := 10 * ts.length + 30

/-- Parser::parse: runs the expression rule from position 0 and returns
    its result as is; no check that the end-of-input token was reached. -/
def parse (ts : List Token) : ParseOut := expressionF (parseFuel ts) ts 0

/-- Projection of the scan output to its tokens, the sequence the driver
    in src/frontend/mod.rs hands to the parser when no lexical error
    occurred. -/
def okTokens (l : List PossibleToken) : List Token :=
  l.filterMap fun pt =>
    match pt with
    | PossibleToken.ok t => some t
    | PossibleToken.err _ => none

/-- Mirrors struct RuntimeError in tree_walk_interpreter.rs. -/
structure RuntimeError where
  message : String
  token : Option Token
  deriving DecidableEq, Repr

/-- Evaluation outcome: Result of optional Literal or RuntimeError. -/
abbrev EvalResult := Except RuntimeError (Option Literal)

/-- RuntimeError::operands_must_be_numbers. -/
def operandsMustBeNumbers (operator : Token) : EvalResult :=
  Except.error ⟨"Operands must be numbers.", some operator⟩

/-- Mirrors fn is_truthy: Boolean is its value, absence is false, every
    other literal is true. -/
def is_truthy : Option Literal → Bool
  | some (Literal.Boolean b) => b
  | none => false
  | _ => true

/-- Mirrors fn evaluate_equal: variant-aware structural equality over
    optional literals, arm for arm. -/
def evaluate_equal : Option Literal → Option Literal → Bool
  | none, none => true
  | some _, none => false
  | none, some _ => false
  | some (Literal.Number l), some (Literal.Number r) => l = r
  | some (Literal.Number _), some _ => false
  | some (Literal.String l), some (Literal.String r) => l = r
  | some (Literal.String _), some _ => false
  | some (Literal.Boolean l), some (Literal.Boolean r) => l = r
  | some (Literal.Boolean _), some _ => false
  | some (Literal.Identifier l), some (Literal.Identifier r) => l = r
  | some (Literal.Identifier _), some _ => false

/-- Fractional decimal digits of r / d, stopping when the remainder is
    exhausted (or after the fuel bound, never reached for the terminating
    decimals arising here). -/
def fracDigits : Nat → Nat → Nat → List Char
  | 0, _, _ => []
  | fuel + 1, r, d =>
    if r = 0 then []
    else Char.ofNat (48 + (10 * r) / d) :: fracDigits fuel ((10 * r) % d) d

/-- Rendering of a Number payload, modelling the Display output of an
    f64 holding the exact value (integer values render with no point,
    terminating decimals with their digits). -/
def ratRepr (q : ℚ) : String :=
  let sign := if q.num < 0 then "-" else ""
  let n := q.num.natAbs
  let d := q.den
  if n % d = 0 then sign ++ Nat.repr (n / d)
  else sign ++ Nat.repr (n / d) ++ "." ++ String.mk (fracDigits 64 (n % d) d)

/-- The Display implementation of Literal (token.rs): Identifier and
    String render verbatim, Number by float formatting, Boolean as
    true/false. -/
def literalToString : Literal → String
  | Literal.Identifier s => s
  | Literal.String s => s
  | Literal.Number n => ratRepr n
  | Literal.Boolean b => if b then "true" else "false"

/-- Rendering of the other operand in the string-concatenation arms of
    the binary plus: present values by Display, absence as nil. -/
def displayOpt : Option Literal → String
  | some v => literalToString v
  | none => "nil"

/-- The operator dispatch of fn evaluate_binary, after both operands have
    been evaluated (the match on operator.token_type in the source, arm
    for arm).  The surrounding destructuring of the Binary node and the
    evaluation of the two operands live in evaluate_expression below. -/
def evaluate_binary_op (operator : Token) (left right : Option Literal) : EvalResult :=
  match operator.token_type with
  | TokenType.Minus =>
    match left, right with
    | some (Literal.Number l), some (Literal.Number r) =>
      Except.ok (some (Literal.Number (l - r)))
    | _, _ => operandsMustBeNumbers operator
  | TokenType.Plus =>
    match left, right with
    | some (Literal.Number l), some (Literal.Number r) =>
      Except.ok (some (Literal.Number (l + r)))
    | some (Literal.String l), r =>
      Except.ok (some (Literal.String (l ++ displayOpt r)))
    | l, some (Literal.String r) =>
      Except.ok (some (Literal.String (displayOpt l ++ r)))
    | _, _ => Except.error ⟨"operands must be numbers or strings.", some operator⟩
  | TokenType.Slash =>
    match left, right with
    | some (Literal.Number l), some (Literal.Number r) =>
      if r = 0 then Except.error ⟨"Division by zero.", some operator⟩
      else Except.ok (some (Literal.Number (l / r)))
    | _, _ => operandsMustBeNumbers operator
  | TokenType.Star =>
    match left, right with
    | some (Literal.Number l), some (Literal.Number r) =>
      Except.ok (some (Literal.Number (l * r)))
    | _, _ => operandsMustBeNumbers operator
  | TokenType.Greater =>
    match left, right with
    | some (Literal.Number l), some (Literal.Number r) =>
      Except.ok (some (Literal.Boolean (decide (l > r))))
    | _, _ => Except.ok (some (Literal.Boolean false))
  | TokenType.GreaterEqual =>
    match left, right with
    | some (Literal.Number l), some (Literal.Number r) =>
      Except.ok (some (Literal.Boolean (decide (l ≥ r))))
    | _, _ => Except.ok (some (Literal.Boolean false))
  | TokenType.Less =>
    match left, right with
    | some (Literal.Number l), some (Literal.Number r) =>
      Except.ok (some (Literal.Boolean (decide (l < r))))
    | _, _ => Except.ok (some (Literal.Boolean false))
  | TokenType.LessEqual =>
    match left, right with
    | some (Literal.Number l), some (Literal.Number r) =>
      Except.ok (some (Literal.Boolean (decide (l ≤ r))))
    | _, _ => Except.ok (some (Literal.Boolean false))
  | TokenType.BangEqual =>
    Except.ok (some (Literal.Boolean (!evaluate_equal left right)))
  | TokenType.EqualEqual =>
    Except.ok (some (Literal.Boolean (evaluate_equal left right)))
  | _ => Except.error ⟨"Unexpected operator", some operator⟩

/-- The operator dispatch of fn evaluate_unary after the operand has been
    evaluated. -/
def evaluate_unary_op (operator : Token) (right : Option Literal) : EvalResult :=
  match operator.token_type with
  | TokenType.Minus =>
    match right with
    | some (Literal.Number n) => Except.ok (some (Literal.Number (-n)))
    | _ => operandsMustBeNumbers operator
  | TokenType.Bang => Except.ok (some (Literal.Boolean (!is_truthy right)))
  | _ => Except.error ⟨"Unexpected operator", some operator⟩

/-- Mirrors fn evaluate_expression: Literal yields its payload, Grouping
    evaluates its inner expression, Ternary evaluates the condition and
    then exactly the branch its truthiness selects, Binary and Unary
    evaluate their operands and dispatch on the operator.  The dead
    defensive arms of evaluate_grouping, evaluate_binary and
    evaluate_unary for a node of the wrong kind are unreachable here
    because the node kind has already been matched. -/
def evaluate_expression : Expression → EvalResult
  | Expression.Literal l => Except.ok l
  | Expression.Grouping inner => evaluate_expression inner
  | Expression.Ternary condition then_branch else_branch =>
    match evaluate_expression condition with
    | Except.error e => Except.error e
    | Except.ok cv =>
      if is_truthy cv then evaluate_expression then_branch
      else evaluate_expression else_branch
  | Expression.Binary left operator right =>
    match evaluate_expression left with
    | Except.error e => Except.error e
    | Except.ok lv =>
      match evaluate_expression right with
      | Except.error e => Except.error e
      | Except.ok rv => evaluate_binary_op operator lv rv
  | Expression.Unary operator right =>
    match evaluate_expression right with
    | Except.error e => Except.error e
    | Except.ok rv => evaluate_unary_op operator rv

/-- fn interpret of tree_walk_interpreter.rs. -/
def interpret (expr : Expression) : EvalResult := evaluate_expression expr

/-- Observable outcome of fn run in src/frontend/mod.rs.  lexAbort models
    the branch that prints one line per lexical error and then unwraps
    the token list (which cannot proceed past an error token); parseFail
    the reported parse error; value the rendered successful result;
    runtimeFail the reported runtime error with the line of its attached
    token, if any. -/
inductive RunResult where
  | lexAbort (reports : List LoxErrorReport)
  | parseFail (e : ParseError)
  | value (rendered : String)
  | runtimeFail (message : String) (line : Option Nat)
  deriving DecidableEq, Repr

/-- Rendering of a successful evaluation by run: the literal by Display,
    absence as nil. -/
def renderResult : Option Literal → String
  | some l => literalToString l
  | none => "nil"

/-- fn run of src/frontend/mod.rs: scan, report lexical errors, parse the
    tokens, report a parse error, otherwise interpret and report the
    value or the runtime error. -/
def run (src : String) : RunResult :=
  let toks := scanTokens src
  let reports := toks.filterMap fun pt =>
    match pt with
    | PossibleToken.ok _ => none
    | PossibleToken.err e => some e
  if reports.isEmpty then
    match parse (okTokens toks) with
    | Except.error e => RunResult.parseFail e
    | Except.ok (expr, _) =>
      match interpret expr with
      | Except.ok v => RunResult.value (renderResult v)
      | Except.error err => RunResult.runtimeFail err.message (err.token.map Token.line_number)
  else RunResult.lexAbort reports

deriving instance DecidableEq for Except

/-- A slash operator token as the scanner produces it for the division
    examples. -/
def slashToken : Token := ⟨TokenType.Slash, "/", none, 0⟩

/-- A plus operator token as the scanner produces it. -/
def plusToken : Token := ⟨TokenType.Plus, "+", none, 0⟩

/-- An equal-equal operator token as the scanner produces it. -/
def equalEqualToken : Token := ⟨TokenType.EqualEqual, "==", none, 0⟩

/-- The expression tree for the source text true ? 1 : (1/0). -/
def ternaryShortCircuitTree : Expression :=
  Expression.Ternary (Expression.Literal (some (Literal.Boolean true)))
    (Expression.Literal (some (Literal.Number 1)))
    (Expression.Grouping (Expression.Binary
      (Expression.Literal (some (Literal.Number 1))) slashToken
      (Expression.Literal (some (Literal.Number 0)))))

/-- Whether an optional literal is a present String. -/
def isStringLit : Option Literal → Bool
  | some (Literal.String _) => true
  | _ => false

/-- Whether an optional literal is a present Number. -/
def isNumberLit : Option Literal → Bool
  | some (Literal.Number _) => true
  | _ => false

/-- Constructor tag of a literal, for stating variant-aware equality. -/
def literalTag : Literal → Nat
  | Literal.Identifier _ => 0
  | Literal.String _ => 1
  | Literal.Number _ => 2
  | Literal.Boolean _ => 3

section ClaimSection

attribute [local semireducible] Rat.add Rat.mul Rat.sub Rat.inv

/-- Claim C1: evaluating a Ternary node evaluates the condition first (a
    condition error propagates unchanged), and then evaluates exactly the
    branch selected by the truthiness of the condition value, never the
    other branch; the tree for true ? 1 : (1/0) evaluates to Number 1
    with no error, although its else branch alone fails with the division
    error. -/
theorem C1_ternary_short_circuit :
    (∀ c tb eb cv, evaluate_expression c = Except.ok cv →
      evaluate_expression (Expression.Ternary c tb eb) =
        (if is_truthy cv then evaluate_expression tb else evaluate_expression eb))
    ∧ (∀ c tb eb e, evaluate_expression c = Except.error e →
      evaluate_expression (Expression.Ternary c tb eb) = Except.error e)
    ∧ interpret ternaryShortCircuitTree = Except.ok (some (Literal.Number 1))
    ∧ interpret (Expression.Grouping (Expression.Binary
        (Expression.Literal (some (Literal.Number 1))) slashToken
        (Expression.Literal (some (Literal.Number 0))))) =
      Except.error ⟨"Division by zero.", some slashToken⟩ := by
  refine ⟨?_, ?_, ?_, ?_⟩
  · intro c tb eb cv h
    simp [evaluate_expression, h]
  · intro c tb eb e h
    simp [evaluate_expression, h]
  · decide
  · decide

/-- Witness for C1 at a concrete ternary tree with a true condition. -/
theorem C1_witness :
    evaluate_expression (Expression.Ternary
        (Expression.Literal (some (Literal.Boolean true)))
        (Expression.Literal (some (Literal.Number 1)))
        (Expression.Literal none)) =
      (if is_truthy (some (Literal.Boolean true)) then
        evaluate_expression (Expression.Literal (some (Literal.Number 1)))
      else evaluate_expression (Expression.Literal none)) :=
  C1_ternary_short_circuit.1 _ _ _ _ rfl

/-- Claim C4: for binary plus, Number plus Number is the numeric sum; a
    String on the left concatenates the Display rendering of the right
    value (absence rendered nil); a String on the right (with a
    non-String left) concatenates on the other side; every remaining
    combination fails with the runtime error about numbers or strings
    carrying the operator token.  The two spec examples evaluate to
    hello1 and 1hello. -/
theorem C4_binary_plus :
    ∀ tok : Token, tok.token_type = TokenType.Plus →
    (∀ a b : ℚ,
      evaluate_binary_op tok (some (Literal.Number a)) (some (Literal.Number b)) =
        Except.ok (some (Literal.Number (a + b))))
    ∧ (∀ (s : String) (r : Option Literal),
        evaluate_binary_op tok (some (Literal.String s)) r =
          Except.ok (some (Literal.String (s ++ displayOpt r))))
    ∧ (∀ (l : Option Literal) (s : String), isStringLit l = false →
        evaluate_binary_op tok l (some (Literal.String s)) =
          Except.ok (some (Literal.String (displayOpt l ++ s))))
    ∧ (∀ l r : Option Literal, (isNumberLit l && isNumberLit r) = false →
        isStringLit l = false → isStringLit r = false →
        evaluate_binary_op tok l r =
          Except.error ⟨"operands must be numbers or strings.", some tok⟩)
    ∧ interpret (Expression.Binary (Expression.Literal (some (Literal.String "hello")))
        plusToken (Expression.Literal (some (Literal.Number 1)))) =
      Except.ok (some (Literal.String "hello1"))
    ∧ interpret (Expression.Binary (Expression.Literal (some (Literal.Number 1)))
        plusToken (Expression.Literal (some (Literal.String "hello")))) =
      Except.ok (some (Literal.String "1hello")) := by
  intro tok h
  refine ⟨?_, ?_, ?_, ?_, ?_, ?_⟩
  · intro a b
    simp [evaluate_binary_op, h]
  · intro s r
    rcases r with _ | (s2 | s2 | q2 | b2) <;> simp [evaluate_binary_op, h]
  · intro l s hl
    rcases l with _ | (s2 | s2 | q2 | b2) <;> simp_all [evaluate_binary_op, isStringLit]
  · intro l r hnum hsl hsr
    rcases l with _ | (s1 | s1 | q1 | b1) <;> rcases r with _ | (s2 | s2 | q2 | b2) <;>
      simp_all [evaluate_binary_op, isStringLit, isNumberLit]
  · decide
  · decide

/-- Witness for C4 at the plus token: 2 + 3 is 5 and a mixed
    Boolean/absence pair fails with the concatenation error. -/
theorem C4_witness :
    evaluate_binary_op plusToken (some (Literal.Number 2)) (some (Literal.Number 3)) =
      Except.ok (some (Literal.Number (2 + 3)))
    ∧ evaluate_binary_op plusToken (some (Literal.Boolean true)) none =
      Except.error ⟨"operands must be numbers or strings.", some plusToken⟩ :=
  ⟨(C4_binary_plus plusToken rfl).1 2 3,
   (C4_binary_plus plusToken rfl).2.2.2.1 (some (Literal.Boolean true)) none rfl rfl rfl⟩

/-- Claim C5: for binary slash, any combination other than two Numbers
    fails with the numbers-only runtime error; two Numbers with a zero
    divisor fail with the division-by-zero error carrying the slash
    operator token; otherwise the result is the quotient (modelled as the
    exact rational quotient, exact for every instance in the claims).
    The pipeline source 1 / 0 fails with that error attached to the
    slash token. -/
theorem C5_binary_slash :
    ∀ tok : Token, tok.token_type = TokenType.Slash →
    (∀ a b : ℚ, b ≠ 0 →
      evaluate_binary_op tok (some (Literal.Number a)) (some (Literal.Number b)) =
        Except.ok (some (Literal.Number (a / b))))
    ∧ (∀ a : ℚ,
        evaluate_binary_op tok (some (Literal.Number a)) (some (Literal.Number 0)) =
          Except.error ⟨"Division by zero.", some tok⟩)
    ∧ (∀ l r : Option Literal, (isNumberLit l && isNumberLit r) = false →
        evaluate_binary_op tok l r = Except.error ⟨"Operands must be numbers.", some tok⟩)
    ∧ run "1 / 0" = RunResult.runtimeFail "Division by zero." (some 0)
    ∧ interpret (Expression.Binary (Expression.Literal (some (Literal.Number 1)))
        slashToken (Expression.Literal (some (Literal.Number 0)))) =
      Except.error ⟨"Division by zero.", some slashToken⟩ := by
  intro tok h
  refine ⟨?_, ?_, ?_, ?_, ?_⟩
  · intro a b hb
    simp [evaluate_binary_op, h, hb]
  · intro a
    simp [evaluate_binary_op, h]
  · intro l r hnum
    rcases l with _ | (s1 | s1 | q1 | b1) <;> rcases r with _ | (s2 | s2 | q2 | b2) <;>
      simp_all [evaluate_binary_op, operandsMustBeNumbers, isNumberLit]
  · decide
  · decide

/-- Witness for C5 at the slash token: 6 / 3 is the quotient and a
    String operand fails with the numbers-only error. -/
theorem C5_witness :
    evaluate_binary_op slashToken (some (Literal.Number 6)) (some (Literal.Number 3)) =
      Except.ok (some (Literal.Number (6 / 3)))
    ∧ evaluate_binary_op slashToken (some (Literal.String "x")) (some (Literal.Number 3)) =
      Except.error ⟨"Operands must be numbers.", some slashToken⟩ :=
  ⟨(C5_binary_slash slashToken rfl).1 6 3 (by decide),
   (C5_binary_slash slashToken rfl).2.2.1 (some (Literal.String "x"))
     (some (Literal.Number 3)) rfl⟩

/-- Claim C6: each of the four comparison operators compares numerically
    when both operand values are Numbers and yields Boolean false for
    every other operand combination; in both cases the result is an ok
    Boolean, so these operators never produce a runtime error. -/
theorem C6_comparisons_never_fail :
    ∀ tok : Token,
    (tok.token_type = TokenType.Greater →
      (∀ a b : ℚ, evaluate_binary_op tok (some (Literal.Number a)) (some (Literal.Number b)) =
        Except.ok (some (Literal.Boolean (decide (a > b)))))
      ∧ ∀ l r : Option Literal, (isNumberLit l && isNumberLit r) = false →
        evaluate_binary_op tok l r = Except.ok (some (Literal.Boolean false)))
    ∧ (tok.token_type = TokenType.GreaterEqual →
      (∀ a b : ℚ, evaluate_binary_op tok (some (Literal.Number a)) (some (Literal.Number b)) =
        Except.ok (some (Literal.Boolean (decide (a ≥ b)))))
      ∧ ∀ l r : Option Literal, (isNumberLit l && isNumberLit r) = false →
        evaluate_binary_op tok l r = Except.ok (some (Literal.Boolean false)))
    ∧ (tok.token_type = TokenType.Less →
      (∀ a b : ℚ, evaluate_binary_op tok (some (Literal.Number a)) (some (Literal.Number b)) =
        Except.ok (some (Literal.Boolean (decide (a < b)))))
      ∧ ∀ l r : Option Literal, (isNumberLit l && isNumberLit r) = false →
        evaluate_binary_op tok l r = Except.ok (some (Literal.Boolean false)))
    ∧ (tok.token_type = TokenType.LessEqual →
      (∀ a b : ℚ, evaluate_binary_op tok (some (Literal.Number a)) (some (Literal.Number b)) =
        Except.ok (some (Literal.Boolean (decide (a ≤ b)))))
      ∧ ∀ l r : Option Literal, (isNumberLit l && isNumberLit r) = false →
        evaluate_binary_op tok l r = Except.ok (some (Literal.Boolean false)))
    ∧ ((tok.token_type = TokenType.Greater ∨ tok.token_type = TokenType.GreaterEqual
        ∨ tok.token_type = TokenType.Less ∨ tok.token_type = TokenType.LessEqual) →
      ∀ l r : Option Literal, ∃ b : Bool,
        evaluate_binary_op tok l r = Except.ok (some (Literal.Boolean b))) := by
  intro tok
  have num : ∀ tt, tok.token_type = tt →
      (tt = TokenType.Greater ∨ tt = TokenType.GreaterEqual
        ∨ tt = TokenType.Less ∨ tt = TokenType.LessEqual) →
      ∀ l r : Option Literal, (isNumberLit l && isNumberLit r) = false →
      evaluate_binary_op tok l r = Except.ok (some (Literal.Boolean false)) := by
    intro tt h htt l r hnum
    rcases l with _ | (s1 | s1 | q1 | b1) <;> rcases r with _ | (s2 | s2 | q2 | b2) <;>
      rcases htt with rfl | rfl | rfl | rfl <;>
      simp_all [evaluate_binary_op, isNumberLit]
  refine ⟨?_, ?_, ?_, ?_, ?_⟩
  · intro h
    exact ⟨fun a b => by simp [evaluate_binary_op, h],
      num TokenType.Greater h (Or.inl rfl)⟩
  · intro h
    exact ⟨fun a b => by simp [evaluate_binary_op, h],
      num TokenType.GreaterEqual h (Or.inr (Or.inl rfl))⟩
  · intro h
    exact ⟨fun a b => by simp [evaluate_binary_op, h],
      num TokenType.Less h (Or.inr (Or.inr (Or.inl rfl)))⟩
  · intro h
    exact ⟨fun a b => by simp [evaluate_binary_op, h],
      num TokenType.LessEqual h (Or.inr (Or.inr (Or.inr rfl)))⟩
  · intro htt l r
    have hcase : (isNumberLit l && isNumberLit r) = false ∨
        ∃ a b : ℚ, l = some (Literal.Number a) ∧ r = some (Literal.Number b) := by
      rcases l with _ | (s1 | s1 | q1 | b1) <;> rcases r with _ | (s2 | s2 | q2 | b2) <;>
        simp [isNumberLit]
    rcases hcase with hnum | ⟨a, b, rfl, rfl⟩
    · rcases htt with h | h | h | h
      · exact ⟨false, num TokenType.Greater h (Or.inl rfl) l r hnum⟩
      · exact ⟨false, num TokenType.GreaterEqual h (Or.inr (Or.inl rfl)) l r hnum⟩
      · exact ⟨false, num TokenType.Less h (Or.inr (Or.inr (Or.inl rfl))) l r hnum⟩
      · exact ⟨false, num TokenType.LessEqual h (Or.inr (Or.inr (Or.inr rfl))) l r hnum⟩
    · rcases htt with h | h | h | h
      · exact ⟨decide (b < a), by simp [evaluate_binary_op, h]⟩
      · exact ⟨decide (b ≤ a), by simp [evaluate_binary_op, h]⟩
      · exact ⟨decide (a < b), by simp [evaluate_binary_op, h]⟩
      · exact ⟨decide (a ≤ b), by simp [evaluate_binary_op, h]⟩

/-- Witness for C6 at a concrete less-than token: 1 < 2 numerically and
    a String compared with a Boolean yields false without an error. -/
theorem C6_witness :
    evaluate_binary_op ⟨TokenType.Less, "<", none, 0⟩
        (some (Literal.Number 1)) (some (Literal.Number 2)) =
      Except.ok (some (Literal.Boolean (decide ((1 : ℚ) < 2))))
    ∧ evaluate_binary_op ⟨TokenType.Less, "<", none, 0⟩
        (some (Literal.String "a")) (some (Literal.Boolean true)) =
      Except.ok (some (Literal.Boolean false)) :=
  ⟨((C6_comparisons_never_fail ⟨TokenType.Less, "<", none, 0⟩).2.2.1 rfl).1 1 2,
   ((C6_comparisons_never_fail ⟨TokenType.Less, "<", none, 0⟩).2.2.1 rfl).2
     (some (Literal.String "a")) (some (Literal.Boolean true)) rfl⟩

/-- Claim C7: equal-equal returns the Boolean of variant-aware structural
    equality and bang-equal its exact negation, for every pair of operand
    values and without ever failing; two absences are equal, absence
    never equals a present value, differing variants are never equal, and
    matching variants compare by native equality.  The example 1 == one
    as a string evaluates to Boolean false. -/
theorem C7_equality :
    (∀ tok : Token, tok.token_type = TokenType.EqualEqual →
      ∀ l r : Option Literal,
        evaluate_binary_op tok l r = Except.ok (some (Literal.Boolean (evaluate_equal l r))))
    ∧ (∀ tok : Token, tok.token_type = TokenType.BangEqual →
      ∀ l r : Option Literal,
        evaluate_binary_op tok l r = Except.ok (some (Literal.Boolean (!evaluate_equal l r))))
    ∧ evaluate_equal none none = true
    ∧ (∀ v : Literal, evaluate_equal (some v) none = false ∧ evaluate_equal none (some v) = false)
    ∧ (∀ u v : Literal, literalTag u ≠ literalTag v → evaluate_equal (some u) (some v) = false)
    ∧ (∀ a b : ℚ, evaluate_equal (some (Literal.Number a)) (some (Literal.Number b)) = decide (a = b))
    ∧ (∀ a b : String, evaluate_equal (some (Literal.String a)) (some (Literal.String b)) = decide (a = b))
    ∧ (∀ a b : String,
        evaluate_equal (some (Literal.Identifier a)) (some (Literal.Identifier b)) = decide (a = b))
    ∧ (∀ a b : Bool, evaluate_equal (some (Literal.Boolean a)) (some (Literal.Boolean b)) = decide (a = b))
    ∧ interpret (Expression.Binary (Expression.Literal (some (Literal.Number 1)))
        equalEqualToken (Expression.Literal (some (Literal.String "1")))) =
      Except.ok (some (Literal.Boolean false)) := by
  refine ⟨?_, ?_, rfl, ?_, ?_, ?_, ?_, ?_, ?_, ?_⟩
  · intro tok h l r
    simp [evaluate_binary_op, h]
  · intro tok h l r
    simp [evaluate_binary_op, h]
  · intro v
    rcases v with s | s | q | b <;> exact ⟨rfl, rfl⟩
  · intro u v huv
    rcases u with s1 | s1 | q1 | b1 <;> rcases v with s2 | s2 | q2 | b2 <;>
      simp_all [literalTag, evaluate_equal]
  · intro a b
    simp [evaluate_equal]
  · intro a b
    simp [evaluate_equal]
  · intro a b
    simp [evaluate_equal]
  · intro a b
    simp [evaluate_equal]
  · decide

/-- Witness for C7: equal-equal on a Number and a String yields the
    Boolean of their structural equality, which is false. -/
theorem C7_witness :
    evaluate_binary_op equalEqualToken (some (Literal.Number 1)) (some (Literal.String "1")) =
      Except.ok (some (Literal.Boolean (evaluate_equal
        (some (Literal.Number 1)) (some (Literal.String "1")))))
    ∧ evaluate_equal (some (Literal.Number 1)) (some (Literal.String "1")) = false :=
  ⟨C7_equality.1 equalEqualToken rfl (some (Literal.Number 1)) (some (Literal.String "1")),
   C7_equality.2.2.2.2.1 (Literal.Number 1) (Literal.String "1") (by decide)⟩

/-- After a decimal point has been consumed, the number loop consumes no
    further decimal point. -/
theorem parseNumberCore_true_no_dot :
    ∀ l : List Char, ((parseNumberCore l true).1.count '.') = 0 := by
  intro l
  induction l with
  | nil => simp [parseNumberCore]
  | cons c rest ih =>
    by_cases hc : c = '.'
    · subst hc
      simp [parseNumberCore]
    · by_cases hd : isDigitG c
      · rcases h : parseNumberCore rest true with ⟨cs, k⟩
        rw [h] at ih
        simp_all [parseNumberCore, hc, hd, h, List.count_cons]
      · simp [parseNumberCore, hc, hd]

/-- The characters consumed by the number loop contain at most one
    decimal point when none has been consumed yet. -/
theorem parseNumberCore_false_le_one_dot :
    ∀ l : List Char, ((parseNumberCore l false).1.count '.') ≤ 1 := by
  intro l
  induction l with
  | nil => simp [parseNumberCore]
  | cons c rest ih =>
    by_cases hc : c = '.'
    · subst hc
      rcases h : parseNumberCore rest true with ⟨cs, k⟩
      have := parseNumberCore_true_no_dot rest
      rw [h] at this
      simp_all [parseNumberCore, h, List.count_cons]
    · by_cases hd : isDigitG c
      · rcases h : parseNumberCore rest false with ⟨cs, k⟩
        rw [h] at ih
        simp_all [parseNumberCore, hc, hd, h, List.count_cons]
      · simp [parseNumberCore, hc, hd]

/-- Claim C8: the number loop consumes at most one decimal point (none
    once one has been consumed, and a second decimal point stops the
    token immediately), so the source 1.234.567.123 scans to exactly
    Number 1.234, Dot, Number 567.123 and the end-of-input marker, with
    no malformed number token and no lexical error. -/
theorem C8_number_single_decimal_point :
    (∀ l : List Char, ((parseNumberCore l false).1.count '.') ≤ 1)
    ∧ (∀ l : List Char, ((parseNumberCore l true).1.count '.') = 0)
    ∧ (∀ rest : List Char, parseNumberCore ('.' :: rest) true = ([], 0))
    ∧ scanTokens "1.234.567.123" =
      [PossibleToken.ok ⟨TokenType.Number, "1.234", some (Literal.Number ((1234 : ℚ) / 1000)), 0⟩,
       PossibleToken.ok ⟨TokenType.Dot, ".", none, 0⟩,
       PossibleToken.ok ⟨TokenType.Number, "567.123",
         some (Literal.Number ((567123 : ℚ) / 1000)), 0⟩,
       PossibleToken.ok (eofToken 0)] := by
  refine ⟨parseNumberCore_false_le_one_dot, parseNumberCore_true_no_dot, ?_, ?_⟩
  · intro rest
    simp [parseNumberCore]
  · decide

/-- An unterminated string consumes everything to end of input, yields no
    content and advances the line counter by the number of newlines seen. -/
theorem parseStringCore_unterminated :
    ∀ (content : List Char) (line : Nat), '"' ∉ content →
      parseStringCore content line = (none, content.length, line + content.count '\n') := by
  intro content
  induction content with
  | nil =>
    intro line h
    simp [parseStringCore]
  | cons c rest ih =>
    intro line h
    have hc : c ≠ '"' := fun hcq => h (by simp [hcq])
    have hrest : '"' ∉ rest := fun hm => h (List.mem_cons_of_mem _ hm)
    by_cases hn : c = '\n'
    · subst hn
      simp [parseStringCore, hc, ih _ hrest, List.count_cons]
      omega
    · simp [parseStringCore, hc, hn, ih _ hrest, List.count_cons]

/-- Claim C3, amended: a string opened by a quote whose closing quote
    never arrives produces exactly one lexical error and no token for the
    string, also when it spans newlines; but the error is tagged with the
    line reached at end of input (the starting line plus the number of
    newlines inside the unterminated string), which is the starting line
    exactly when the string spans no newline.  The original claim, that
    the tag is the starting line even across newlines, fails (see the
    counterexample). -/
theorem C3_unterminated_string :
    (∀ (content : List Char) (line : Nat), '"' ∉ content →
      parseStringCore content line = (none, content.length, line + content.count '\n'))
    ∧ (∀ (fuel : Nat) (rest : List Char) (idx line : Nat), '"' ∉ rest →
      scanLoop (fuel + 1) ('"' :: rest) idx line =
        [PossibleToken.err ⟨line + rest.count '\n', "",
           unterminatedMsg (line + rest.count '\n') idx⟩,
         PossibleToken.ok (eofToken (line + rest.count '\n'))]) := by
  refine ⟨parseStringCore_unterminated, ?_⟩
  intro fuel rest idx line h
  have hs := parseStringCore_unterminated rest line h
  have hstep : scanStep '"' rest idx line =
      ([PossibleToken.err ⟨line + rest.count '\n', "",
          unterminatedMsg (line + rest.count '\n') idx⟩], [], idx + (1 + rest.length),
        line + rest.count '\n') := by
    simp [scanStep, single_char_token, string_arm, hs, List.drop_length]
  simp [scanLoop, hstep]

/-- Witness for C3 on the concrete unterminated two-line string of the
    counterexample: one error, tagged line 1, and the end marker. -/
theorem C3_witness :
    scanLoop 4 ('"' :: ['x', '\n', 'y']) 0 0 =
      [PossibleToken.err ⟨0 + ['x', '\n', 'y'].count '\n', "",
         unterminatedMsg (0 + ['x', '\n', 'y'].count '\n') 0⟩,
       PossibleToken.ok (eofToken (0 + ['x', '\n', 'y'].count '\n'))] :=
  C3_unterminated_string.2 3 ['x', '\n', 'y'] 0 0 (by decide)

/-- Counterexample to C3 as stated: in the source consisting of a quote,
    the letter x, a newline and the letter y, the string opens on line 0
    (the scanner starts at line 0 and no newline precedes the quote), yet
    the single lexical error produced is tagged with line 1, the line
    reached at end of input, not the starting line 0. -/
theorem C3_counterexample :
    scanTokens "\"x\ny" =
      [PossibleToken.err ⟨1, "", unterminatedMsg 1 0⟩, PossibleToken.ok (eofToken 1)]
    ∧ (⟨1, "", unterminatedMsg 1 0⟩ : LoxErrorReport).line_number ≠ 0 := by
  exact ⟨by decide, by decide⟩

/-- check_next is false when the next token kind differs (or the parser
    is at the end-of-input token). -/
theorem checkNextT_eq_false (ts : List Token) (i : Nat) (tt : TokenType)
    (h : (peekT ts i).token_type ≠ tt ∨ (peekT ts i).token_type = TokenType.Eof) :
    checkNextT ts i tt = false := by
  rcases h with h | h
  · simp [checkNextT, isAtEndT, h]
  · simp [checkNextT, isAtEndT, h]

/-- next_matches leaves the position unchanged when no kind matches. -/
theorem nextMatchesT_no (ts : List Token) (i : Nat) (tts : List TokenType)
    (h : ∀ tt ∈ tts, checkNextT ts i tt = false) :
    nextMatchesT ts i tts = (false, i) := by
  have : (tts.any fun tt => checkNextT ts i tt) = false := by
    simp only [List.any_eq_false]
    intro tt htt
    simp [h tt htt]
  simp [nextMatchesT, this]

/-- next_matches advances by one when some kind matches. -/
theorem nextMatchesT_yes (ts : List Token) (i : Nat) (tts : List TokenType)
    (h : (tts.any fun tt => checkNextT ts i tt) = true) :
    nextMatchesT ts i tts = (true, i + 1) := by
  simp [nextMatchesT, h]

/-- The binary-chain loop stops and returns its accumulator when no
    operator kind is next. -/
theorem leftAssocLoop_stop (next : List Token → Nat → ParseOut) (tts : List TokenType)
    (ts : List Token) (fuel : Nat) (e : Expression) (i : Nat)
    (h : nextMatchesT ts i tts = (false, i)) :
    leftAssocLoop next tts ts (fuel + 1) e i = Except.ok (e, i) := by
  simp [leftAssocLoop, h]

/-- One iteration of the binary-chain loop: on an operator match the
    accumulator is folded into a left-nested Binary node with the parsed
    right operand. -/
theorem leftAssocLoop_step (next : List Token → Nat → ParseOut) (tts : List TokenType)
    (ts : List Token) (fuel : Nat) (e : Expression) (i : Nat) (r : Expression) (j : Nat)
    (h1 : nextMatchesT ts i tts = (true, i + 1))
    (h2 : next ts (i + 1) = Except.ok (r, j)) :
    leftAssocLoop next tts ts (fuel + 1) e i =
      leftAssocLoop next tts ts fuel (Expression.Binary e (getPreviousT ts (i + 1)) r) j := by
  simp [leftAssocLoop, h1, h2]

/-- A binary-chain rule that parses its first operand and finds no
    operator next returns that operand unchanged. -/
theorem create_left_assoc_ok (tts : List TokenType) (next : List Token → Nat → ParseOut)
    (ts : List Token) (fuel i : Nat) (e : Expression) (j : Nat)
    (h1 : next ts i = Except.ok (e, j))
    (h2 : nextMatchesT ts j tts = (false, j)) :
    create_left_associative_binary_expression tts next ts (fuel + 1) i = Except.ok (e, j) := by
  simp [create_left_associative_binary_expression, h1, leftAssocLoop_stop _ _ _ _ _ _ h2]

theorem expressionF_succ (fuel : Nat) (ts : List Token) (i : Nat) :
    expressionF (fuel + 1) ts i = commaF fuel ts i := rfl

theorem commaF_succ (fuel : Nat) (ts : List Token) (i : Nat) :
    commaF (fuel + 1) ts i =
      create_left_associative_binary_expression [TokenType.Comma]
        (fun ts2 i2 => ternaryF fuel ts2 i2) ts fuel i := rfl

theorem equalityF_succ (fuel : Nat) (ts : List Token) (i : Nat) :
    equalityF (fuel + 1) ts i =
      create_left_associative_binary_expression [TokenType.BangEqual, TokenType.EqualEqual]
        (fun ts2 i2 => comparisonF fuel ts2 i2) ts fuel i := rfl

theorem comparisonF_succ (fuel : Nat) (ts : List Token) (i : Nat) :
    comparisonF (fuel + 1) ts i =
      create_left_associative_binary_expression
        [TokenType.Greater, TokenType.GreaterEqual, TokenType.Less, TokenType.LessEqual]
        (fun ts2 i2 => termF fuel ts2 i2) ts fuel i := rfl

theorem termF_succ (fuel : Nat) (ts : List Token) (i : Nat) :
    termF (fuel + 1) ts i =
      create_left_associative_binary_expression [TokenType.Minus, TokenType.Plus]
        (fun ts2 i2 => factorF fuel ts2 i2) ts fuel i := rfl

theorem factorF_succ (fuel : Nat) (ts : List Token) (i : Nat) :
    factorF (fuel + 1) ts i =
      create_left_associative_binary_expression [TokenType.Slash, TokenType.Star]
        (fun ts2 i2 => unaryF fuel ts2 i2) ts fuel i := rfl

/-- The ternary rule returns the equality result unchanged when no
    question mark follows. -/
theorem ternaryF_no_question (fuel : Nat) (ts : List Token) (i : Nat) (e : Expression) (j : Nat)
    (h1 : equalityF fuel ts i = Except.ok (e, j))
    (h2 : nextMatchesT ts j [TokenType.QuestionMark] = (false, j)) :
    ternaryF (fuel + 1) ts i = Except.ok (e, j) := by
  simp [ternaryF, h1, h2]

/-- The unary rule falls through to primary when neither bang nor minus
    is next. -/
theorem unaryF_no_prefix (fuel : Nat) (ts : List Token) (i : Nat)
    (h : nextMatchesT ts i [TokenType.Bang, TokenType.Minus] = (false, i)) :
    unaryF (fuel + 1) ts i = primaryF fuel ts i := by
  simp [unaryF, h]

/-- The primary rule on a Number token consumes it and yields a Literal
    node with the value re-parsed from the lexeme. -/
theorem primaryF_number (fuel : Nat) (ts : List Token) (i : Nat) (q : ℚ)
    (h1 : (peekT ts i).token_type = TokenType.Number)
    (h2 : parseNumberLit (peekT ts i).lexeme = some q) :
    primaryF (fuel + 1) ts i =
      Except.ok (Expression.Literal (some (Literal.Number q)), i + 1) := by
  simp [primaryF, h1, h2]

/-- The operator kinds consumed by any of the binary-chain rules or the
    ternary rule. -/
def binaryOpKinds : List TokenType :=
  [TokenType.Comma, TokenType.QuestionMark, TokenType.BangEqual, TokenType.EqualEqual,
   TokenType.Greater, TokenType.GreaterEqual, TokenType.Less, TokenType.LessEqual,
   TokenType.Minus, TokenType.Plus, TokenType.Slash, TokenType.Star]

/-- next_matches finds nothing when the next token kind is outside every
    binary-chain operator kind. -/
theorem nextMatchesT_no_of_not_mem (ts : List Token) (i : Nat) (tts : List TokenType)
    (hsub : ∀ tt ∈ tts, tt ∈ binaryOpKinds)
    (h : (peekT ts i).token_type ∉ binaryOpKinds) :
    nextMatchesT ts i tts = (false, i) :=
  nextMatchesT_no ts i tts fun tt htt =>
    checkNextT_eq_false ts i tt (Or.inl fun he => h (he ▸ hsub tt htt))

/-- The factor rule on a single Number token not followed by a slash or
    star yields just the Literal node. -/
theorem factorF_number (fuel : Nat) (ts : List Token) (i : Nat) (q : ℚ)
    (h1 : (peekT ts i).token_type = TokenType.Number)
    (h2 : parseNumberLit (peekT ts i).lexeme = some q)
    (h3 : checkNextT ts (i + 1) TokenType.Slash = false)
    (h4 : checkNextT ts (i + 1) TokenType.Star = false) :
    factorF (fuel + 3) ts i =
      Except.ok (Expression.Literal (some (Literal.Number q)), i + 1) := by
  have hb : checkNextT ts i TokenType.Bang = false := by simp [checkNextT, isAtEndT, h1]
  have hm : checkNextT ts i TokenType.Minus = false := by simp [checkNextT, isAtEndT, h1]
  have hnm : nextMatchesT ts i [TokenType.Bang, TokenType.Minus] = (false, i) := by
    refine nextMatchesT_no ts i _ ?_
    intro tt htt
    simp only [List.mem_cons, List.not_mem_nil, or_false] at htt
    rcases htt with rfl | rfl
    · exact hb
    · exact hm
  have hu : unaryF (fuel + 2) ts i = primaryF (fuel + 1) ts i :=
    unaryF_no_prefix (fuel + 1) ts i hnm
  have hp : primaryF (fuel + 1) ts i =
      Except.ok (Expression.Literal (some (Literal.Number q)), i + 1) :=
    primaryF_number fuel ts i q h1 h2
  have hnf : nextMatchesT ts (i + 1) [TokenType.Slash, TokenType.Star] = (false, i + 1) := by
    refine nextMatchesT_no ts (i + 1) _ ?_
    intro tt htt
    simp only [List.mem_cons, List.not_mem_nil, or_false] at htt
    rcases htt with rfl | rfl
    · exact h3
    · exact h4
  rw [factorF_succ (fuel + 2) ts i]
  exact create_left_assoc_ok _ _ ts (fuel + 1) i _ (i + 1) (by rw [hu]; exact hp) hnf

/-- Chaining a finished term result up through comparison, equality,
    ternary, comma and expression when no further operator follows. -/
theorem expressionF_of_termF (fuel : Nat) (ts : List Token) (i : Nat) (e : Expression) (j : Nat)
    (ht : termF (fuel + 4) ts i = Except.ok (e, j))
    (h3 : (peekT ts j).token_type ∉ binaryOpKinds) :
    expressionF (fuel + 9) ts i = Except.ok (e, j) := by
  have hno : ∀ tts : List TokenType, (∀ tt ∈ tts, tt ∈ binaryOpKinds) →
      nextMatchesT ts j tts = (false, j) := fun tts hsub =>
    nextMatchesT_no_of_not_mem ts j tts hsub h3
  have hcp : comparisonF (fuel + 5) ts i = Except.ok (e, j) := by
    rw [comparisonF_succ (fuel + 4)]
    exact create_left_assoc_ok _ _ ts (fuel + 3) i e j ht (hno _ (by decide))
  have heq : equalityF (fuel + 6) ts i = Except.ok (e, j) := by
    rw [equalityF_succ (fuel + 5)]
    exact create_left_assoc_ok _ _ ts (fuel + 4) i e j hcp (hno _ (by decide))
  have hte : ternaryF (fuel + 7) ts i = Except.ok (e, j) :=
    ternaryF_no_question (fuel + 6) ts i e j heq (hno _ (by decide))
  have hco : commaF (fuel + 8) ts i = Except.ok (e, j) := by
    rw [commaF_succ (fuel + 7)]
    exact create_left_assoc_ok _ _ ts (fuel + 6) i e j hte (hno _ (by decide))
  rw [expressionF_succ (fuel + 8)]
  exact hco

/-- The whole expression cascade on a single Number token followed by a
    token that no rule treats as an operator parses just the Literal. -/
theorem expressionF_single_number (fuel : Nat) (ts : List Token) (i : Nat) (q : ℚ)
    (h1 : (peekT ts i).token_type = TokenType.Number)
    (h2 : parseNumberLit (peekT ts i).lexeme = some q)
    (h3 : (peekT ts (i + 1)).token_type ∉ binaryOpKinds) :
    expressionF (fuel + 9) ts i =
      Except.ok (Expression.Literal (some (Literal.Number q)), i + 1) := by
  have hck : ∀ tt ∈ binaryOpKinds, checkNextT ts (i + 1) tt = false := fun tt htt =>
    checkNextT_eq_false ts (i + 1) tt (Or.inl fun he => h3 (he ▸ htt))
  have hf : factorF (fuel + 3) ts i =
      Except.ok (Expression.Literal (some (Literal.Number q)), i + 1) :=
    factorF_number fuel ts i q h1 h2 (hck _ (by decide)) (hck _ (by decide))
  have ht : termF (fuel + 4) ts i =
      Except.ok (Expression.Literal (some (Literal.Number q)), i + 1) := by
    rw [termF_succ (fuel + 3)]
    exact create_left_assoc_ok _ _ ts (fuel + 2) i _ (i + 1) hf
      (nextMatchesT_no_of_not_mem ts (i + 1) _ (by decide) h3)
  exact expressionF_of_termF fuel ts i _ (i + 1) ht h3

/-- The term rule on Number Minus Number Minus Number folds the two
    subtractions into a left-nested tree. -/
theorem termF_three_minus (fuel : Nat) (la lb lc : String) (qa qb qc : ℚ)
    (ha : parseNumberLit la = some qa) (hb : parseNumberLit lb = some qb)
    (hc : parseNumberLit lc = some qc) :
    termF (fuel + 4)
      [⟨TokenType.Number, la, none, 0⟩, ⟨TokenType.Minus, "-", none, 0⟩,
       ⟨TokenType.Number, lb, none, 0⟩, ⟨TokenType.Minus, "-", none, 0⟩,
       ⟨TokenType.Number, lc, none, 0⟩, eofToken 0] 0 =
      Except.ok (Expression.Binary (Expression.Binary
        (Expression.Literal (some (Literal.Number qa))) ⟨TokenType.Minus, "-", none, 0⟩
        (Expression.Literal (some (Literal.Number qb)))) ⟨TokenType.Minus, "-", none, 0⟩
        (Expression.Literal (some (Literal.Number qc))), 5) := by
  set ts : List Token :=
    [⟨TokenType.Number, la, none, 0⟩, ⟨TokenType.Minus, "-", none, 0⟩,
     ⟨TokenType.Number, lb, none, 0⟩, ⟨TokenType.Minus, "-", none, 0⟩,
     ⟨TokenType.Number, lc, none, 0⟩, eofToken 0] with hts
  have hf0 : factorF (fuel + 3) ts 0 =
      Except.ok (Expression.Literal (some (Literal.Number qa)), 1) :=
    factorF_number fuel ts 0 qa rfl ha rfl rfl
  have hf2 : factorF (fuel + 3) ts 2 =
      Except.ok (Expression.Literal (some (Literal.Number qb)), 3) :=
    factorF_number fuel ts 2 qb rfl hb rfl rfl
  have hf4 : factorF (fuel + 3) ts 4 =
      Except.ok (Expression.Literal (some (Literal.Number qc)), 5) :=
    factorF_number fuel ts 4 qc rfl hc rfl rfl
  have h1m : nextMatchesT ts 1 [TokenType.Minus, TokenType.Plus] = (true, 2) := rfl
  have h3m : nextMatchesT ts 3 [TokenType.Minus, TokenType.Plus] = (true, 4) := rfl
  have h5m : nextMatchesT ts 5 [TokenType.Minus, TokenType.Plus] = (false, 5) := rfl
  rw [termF_succ (fuel + 3)]
  simp only [create_left_associative_binary_expression, hf0]
  rw [leftAssocLoop_step _ _ ts (fuel + 2) _ 1 _ 3 h1m hf2,
      leftAssocLoop_step _ _ ts (fuel + 1) _ 3 _ 5 h3m hf4,
      leftAssocLoop_stop _ _ ts fuel _ 5 h5m]
  rfl

/-- Claim C9: the binary-chain rules fold left-associatively: a token
    list Number Minus Number Minus Number parses to the tree of
    (a - b) - c for arbitrary numeric lexemes, the concrete source
    7 - 2 - 1 parses to that left-nested tree, plus binds tighter than
    less (tree of 1 < 3 + 4), and the full pipeline on 1 < 3 + 4 yields
    Boolean true, rendered true. -/
theorem C9_left_assoc_and_precedence :
    (∀ (fuel : Nat) (la lb lc : String) (qa qb qc : ℚ),
      parseNumberLit la = some qa → parseNumberLit lb = some qb →
      parseNumberLit lc = some qc →
      expressionF (fuel + 9)
        [⟨TokenType.Number, la, none, 0⟩, ⟨TokenType.Minus, "-", none, 0⟩,
         ⟨TokenType.Number, lb, none, 0⟩, ⟨TokenType.Minus, "-", none, 0⟩,
         ⟨TokenType.Number, lc, none, 0⟩, eofToken 0] 0 =
        Except.ok (Expression.Binary (Expression.Binary
          (Expression.Literal (some (Literal.Number qa))) ⟨TokenType.Minus, "-", none, 0⟩
          (Expression.Literal (some (Literal.Number qb)))) ⟨TokenType.Minus, "-", none, 0⟩
          (Expression.Literal (some (Literal.Number qc))), 5))
    ∧ parse (okTokens (scanTokens "7 - 2 - 1")) =
      Except.ok (Expression.Binary (Expression.Binary
        (Expression.Literal (some (Literal.Number 7)))
        ⟨TokenType.Minus, "-", none,  0⟩
        (Expression.Literal (some (Literal.Number 2))))
        ⟨TokenType.Minus, "-", none, 0⟩
        (Expression.Literal (some (Literal.Number 1))), 5)
    ∧ parse (okTokens (scanTokens "1 < 3 + 4")) =
      Except.ok (Expression.Binary (Expression.Literal (some (Literal.Number 1)))
        ⟨TokenType.Less, "<", none, 0⟩
        (Expression.Binary (Expression.Literal (some (Literal.Number 3)))
          ⟨TokenType.Plus, "+", none, 0⟩
          (Expression.Literal (some (Literal.Number 4)))), 5)
    ∧ run "1 < 3 + 4" = RunResult.value "true" := by
  refine ⟨?_, by decide, by decide, by decide⟩
  intro fuel la lb lc qa qb qc ha hb hc
  refine expressionF_of_termF fuel _ 0 _ 5 (termF_three_minus fuel la lb lc qa qb qc ha hb hc) ?_
  intro hmem
  simp [peekT, eofToken, binaryOpKinds] at hmem

/-- Witness for C9 at the lexemes 7, 2, 1 with fuel 0. -/
theorem C9_witness :
    expressionF 9
      [⟨TokenType.Number, "7", none, 0⟩, ⟨TokenType.Minus, "-", none, 0⟩,
       ⟨TokenType.Number, "2", none, 0⟩, ⟨TokenType.Minus, "-", none, 0⟩,
       ⟨TokenType.Number, "1", none, 0⟩, eofToken 0] 0 =
      Except.ok (Expression.Binary (Expression.Binary
        (Expression.Literal (some (Literal.Number 7))) ⟨TokenType.Minus, "-", none, 0⟩
        (Expression.Literal (some (Literal.Number 2)))) ⟨TokenType.Minus, "-", none, 0⟩
        (Expression.Literal (some (Literal.Number 1))), 5) :=
  C9_left_assoc_and_precedence.1 0 "7" "2" "1" 7 2 1 (by decide) (by decide) (by decide)

/-- Claim C10: parse returns as soon as the expression rule has read a
    complete expression and never checks that the end-of-input token was
    reached: a Number token followed by any token sequence whose head is
    not one of the binary or ternary operator kinds parses successfully
    to just that literal, leaving the trailing tokens unread; the source
    1 2 parses without error to the literal 1, and the pipeline prints 1,
    silently ignoring the trailing token. -/
theorem C10_trailing_tokens_ignored :
    (∀ ts : List Token, parse ts = expressionF (parseFuel ts) ts 0)
    ∧ (∀ (t : Token) (rest : List Token) (q : ℚ),
      t.token_type = TokenType.Number → parseNumberLit t.lexeme = some q →
      (peekT (t :: rest) 1).token_type ∉ binaryOpKinds →
      parse (t :: rest) = Except.ok (Expression.Literal (some (Literal.Number q)), 1))
    ∧ parse (okTokens (scanTokens "1 2")) =
      Except.ok (Expression.Literal (some (Literal.Number 1)), 1)
    ∧ run "1 2" = RunResult.value "1" := by
  refine ⟨fun ts => rfl, ?_, by decide, by decide⟩
  intro t rest q h1 h2 h3
  have hfl : parseFuel (t :: rest) = (10 * rest.length + 31) + 9 := by
    simp [parseFuel]
    omega
  show expressionF (parseFuel (t :: rest)) (t :: rest) 0 = _
  rw [hfl]
  exact expressionF_single_number (10 * rest.length + 31) (t :: rest) 0 q h1 h2 h3

/-- Witness for C10 on the token list of the source 1 2. -/
theorem C10_witness :
    parse [⟨TokenType.Number, "1", none, 0⟩, ⟨TokenType.Number, "2", none, 0⟩, eofToken 0] =
      Except.ok (Expression.Literal (some (Literal.Number 1)), 1) :=
  C10_trailing_tokens_ignored.2.1 ⟨TokenType.Number, "1", none, 0⟩
    [⟨TokenType.Number, "2", none, 0⟩, eofToken 0] 1 rfl (by decide) (by decide)

/-- A successful association-list lookup returns one of the stored
    values. -/
theorem lookup_mem_values {α β : Type} [BEq α] :
    ∀ (l : List (α × β)) (a : α) (b : β), l.lookup a = some b → b ∈ l.map Prod.snd := by
  intro l
  induction l with
  | nil =>
    intro a b h
    simp [List.lookup] at h
  | cons p rest ih =>
    intro a b h
    rw [List.lookup] at h
    cases hp : a == p.1 with
    | true =>
      rw [hp] at h
      simp only [] at h
      cases h
      simp
    | false =>
      rw [hp] at h
      simp only [] at h
      simp only [List.map_cons, List.mem_cons]
      exact Or.inr (ih a b h)

/-- The keyword table never yields the QuestionMark or Colon kind. -/
theorem keywordLookup_no_qc (s : String) :
    keywordLookup s ≠ TokenType.QuestionMark ∧ keywordLookup s ≠ TokenType.Colon := by
  unfold keywordLookup
  cases h : keywords.lookup s with
  | none => simp
  | some v =>
    have hv := lookup_mem_values keywords s v h
    simp only [keywords, List.map_cons, List.map_nil, List.mem_cons,
      List.not_mem_nil, or_false] at hv
    rcases hv with rfl | rfl | rfl | rfl | rfl | rfl | rfl | rfl | rfl | rfl | rfl | rfl
      | rfl | rfl | rfl | rfl <;> simp


/-- The single-character table never yields QuestionMark or Colon. -/
theorem single_char_token_no_qc (c : Char) (tt : TokenType)
    (h : single_char_token c = some tt) :
    tt ≠ TokenType.QuestionMark ∧ tt ≠ TokenType.Colon := by
  unfold single_char_token at h
  repeat' split at h
  all_goals first
    | exact Option.noConfusion h
    | (cases h; exact ⟨by decide, by decide⟩)

/-- Tokens emitted by add_if_next_matches carry one of its two kinds. -/
theorem add_if_next_matches_types (expected : Char) (on_true on_false : TokenType)
    (c : Char) (rest : List Char) (line : Nat) (out : List PossibleToken)
    (rest2 : List Char) (k : Nat)
    (h : add_if_next_matches expected on_true on_false c rest line = (out, rest2, k)) :
    ∀ t : Token, PossibleToken.ok t ∈ out →
      t.token_type = on_true ∨ t.token_type = on_false := by
  intro t hmem
  unfold add_if_next_matches at h
  repeat' split at h
  all_goals
    simp only [Prod.mk.injEq] at h
  all_goals
    obtain ⟨rfl, -⟩ := h
  all_goals
    simp only [List.mem_cons, List.not_mem_nil, or_false, PossibleToken.ok.injEq] at hmem
  all_goals subst hmem
  · exact Or.inl rfl
  · exact Or.inr rfl
  · exact Or.inr rfl

/-- Tokens emitted by the slash arm are Slash tokens. -/
theorem slash_arm_types (c : Char) (rest : List Char) (line : Nat)
    (out : List PossibleToken) (rest2 : List Char) (k line2 : Nat)
    (h : slash_arm c rest line = (out, rest2, k, line2)) :
    ∀ t : Token, PossibleToken.ok t ∈ out → t.token_type = TokenType.Slash := by
  intro t hmem
  unfold slash_arm at h
  repeat' split at h
  all_goals
    simp only [Prod.mk.injEq] at h
  all_goals
    obtain ⟨rfl, -⟩ := h
  all_goals
    simp only [List.mem_cons, List.not_mem_nil, or_false, List.not_mem_nil,
      PossibleToken.ok.injEq] at hmem
  all_goals first
    | exact hmem.elim
    | (subst hmem; rfl)

/-- Tokens emitted by the string arm are String tokens. -/
theorem string_arm_types (rest : List Char) (idx line : Nat)
    (out : List PossibleToken) (rest2 : List Char) (k line2 : Nat)
    (h : string_arm rest idx line = (out, rest2, k, line2)) :
    ∀ t : Token, PossibleToken.ok t ∈ out → t.token_type = TokenType.String := by
  intro t hmem
  unfold string_arm at h
  repeat' split at h
  all_goals
    simp only [Prod.mk.injEq] at h
  all_goals
    obtain ⟨rfl, -⟩ := h
  all_goals
    simp only [List.mem_cons, List.not_mem_nil, or_false,
      PossibleToken.ok.injEq, reduceCtorEq] at hmem
  all_goals first
    | exact hmem.elim
    | (subst hmem; rfl)

/-- Tokens emitted by the number arm are Number tokens. -/
theorem number_arm_types (c : Char) (rest : List Char) (idx line : Nat)
    (out : List PossibleToken) (rest2 : List Char) (k : Nat)
    (h : number_arm c rest idx line = (out, rest2, k)) :
    ∀ t : Token, PossibleToken.ok t ∈ out → t.token_type = TokenType.Number := by
  intro t hmem
  unfold number_arm at h
  repeat' split at h
  all_goals
    simp only [Prod.mk.injEq] at h
  all_goals
    obtain ⟨rfl, -⟩ := h
  all_goals
    simp only [List.mem_cons, List.not_mem_nil, or_false,
      PossibleToken.ok.injEq, reduceCtorEq] at hmem
  all_goals first
    | exact hmem.elim
    | (subst hmem; rfl)

/-- Tokens emitted by the identifier arm carry a keyword-table kind. -/
theorem identifier_arm_no_qc (c : Char) (rest : List Char) (line : Nat)
    (out : List PossibleToken) (rest2 : List Char) (k : Nat)
    (h : identifier_arm c rest line = (out, rest2, k)) :
    ∀ t : Token, PossibleToken.ok t ∈ out →
      t.token_type ≠ TokenType.QuestionMark ∧ t.token_type ≠ TokenType.Colon := by
  intro t hmem
  unfold identifier_arm at h
  repeat' split at h
  all_goals
    simp only [Prod.mk.injEq] at h
  all_goals
    obtain ⟨rfl, -⟩ := h
  all_goals
    simp only [List.mem_cons, List.not_mem_nil, or_false, PossibleToken.ok.injEq] at hmem
  all_goals subst hmem
  exact keywordLookup_no_qc _

/-- No iteration of the scan loop ever emits a token of kind QuestionMark
    or Colon: no match arm of scan_tokens produces those kinds, and the
    keyword table does not contain them. -/
theorem scanStep_no_qc (c : Char) (rest : List Char) (idx line : Nat)
    (out : List PossibleToken) (r2 : List Char) (i2 l2 : Nat)
    (hstep : scanStep c rest idx line = (out, r2, i2, l2)) :
    ∀ t : Token, PossibleToken.ok t ∈ out →
      t.token_type ≠ TokenType.QuestionMark ∧ t.token_type ≠ TokenType.Colon := by
  intro t hmem
  unfold scanStep at hstep
  cases h1 : single_char_token c with
  | some tt =>
    rw [h1] at hstep
    simp only [Prod.mk.injEq] at hstep
    obtain ⟨rfl, -⟩ := hstep
    simp only [List.mem_cons, List.not_mem_nil, or_false, PossibleToken.ok.injEq] at hmem
    subst hmem
    exact single_char_token_no_qc c tt h1
  | none =>
    rw [h1] at hstep
    simp only [] at hstep
    by_cases h2 : c = '!'
    · rw [if_pos h2] at hstep
      rcases ha : add_if_next_matches '=' TokenType.BangEqual TokenType.Bang c rest line
        with ⟨o, rs, k⟩
      rw [ha] at hstep
      simp only [Prod.mk.injEq] at hstep
      obtain ⟨rfl, -⟩ := hstep
      rcases add_if_next_matches_types _ _ _ _ _ _ _ _ _ ha t hmem with h | h <;>
        exact ⟨by rw [h]; decide, by rw [h]; decide⟩
    · rw [if_neg h2] at hstep
      by_cases h3 : c = '='
      · rw [if_pos h3] at hstep
        rcases ha : add_if_next_matches '=' TokenType.EqualEqual TokenType.Equal c rest line
          with ⟨o, rs, k⟩
        rw [ha] at hstep
        simp only [Prod.mk.injEq] at hstep
        obtain ⟨rfl, -⟩ := hstep
        rcases add_if_next_matches_types _ _ _ _ _ _ _ _ _ ha t hmem with h | h <;>
          exact ⟨by rw [h]; decide, by rw [h]; decide⟩
      · rw [if_neg h3] at hstep
        by_cases h4 : c = '<'
        · rw [if_pos h4] at hstep
          rcases ha : add_if_next_matches '=' TokenType.LessEqual TokenType.Less c rest line
            with ⟨o, rs, k⟩
          rw [ha] at hstep
          simp only [Prod.mk.injEq] at hstep
          obtain ⟨rfl, -⟩ := hstep
          rcases add_if_next_matches_types _ _ _ _ _ _ _ _ _ ha t hmem with h | h <;>
            exact ⟨by rw [h]; decide, by rw [h]; decide⟩
        · rw [if_neg h4] at hstep
          by_cases h5 : c = '>'
          · rw [if_pos h5] at hstep
            rcases ha : add_if_next_matches '=' TokenType.GreaterEqual TokenType.Greater c rest line
              with ⟨o, rs, k⟩
            rw [ha] at hstep
            simp only [Prod.mk.injEq] at hstep
            obtain ⟨rfl, -⟩ := hstep
            rcases add_if_next_matches_types _ _ _ _ _ _ _ _ _ ha t hmem with h | h <;>
              exact ⟨by rw [h]; decide, by rw [h]; decide⟩
          · rw [if_neg h5] at hstep
            by_cases h6 : c = '/'
            · rw [if_pos h6] at hstep
              rcases ha : slash_arm c rest line with ⟨o, rs, k, l2x⟩
              rw [ha] at hstep
              simp only [Prod.mk.injEq] at hstep
              obtain ⟨rfl, -⟩ := hstep
              have h := slash_arm_types _ _ _ _ _ _ _ ha t hmem
              exact ⟨by rw [h]; decide, by rw [h]; decide⟩
            · rw [if_neg h6] at hstep
              by_cases h7 : c = ' ' ∨ c = '\r' ∨ c = '\t'
              · rw [if_pos h7] at hstep
                simp only [Prod.mk.injEq] at hstep
                obtain ⟨rfl, -⟩ := hstep
                exact absurd hmem (List.not_mem_nil _)
              · rw [if_neg h7] at hstep
                by_cases h8 : c = '\n'
                · rw [if_pos h8] at hstep
                  simp only [Prod.mk.injEq] at hstep
                  obtain ⟨rfl, -⟩ := hstep
                  exact absurd hmem (List.not_mem_nil _)
                · rw [if_neg h8] at hstep
                  by_cases h9 : c = '"'
                  · rw [if_pos h9] at hstep
                    rcases ha : string_arm rest idx line with ⟨o, rs, k, l2x⟩
                    rw [ha] at hstep
                    simp only [Prod.mk.injEq] at hstep
                    obtain ⟨rfl, -⟩ := hstep
                    have h := string_arm_types _ _ _ _ _ _ _ ha t hmem
                    exact ⟨by rw [h]; decide, by rw [h]; decide⟩
                  · rw [if_neg h9] at hstep
                    by_cases h10 : isDigitG c = true
                    · rw [if_pos h10] at hstep
                      rcases ha : number_arm c rest idx line with ⟨o, rs, k⟩
                      rw [ha] at hstep
                      simp only [Prod.mk.injEq] at hstep
                      obtain ⟨rfl, -⟩ := hstep
                      have h := number_arm_types _ _ _ _ _ _ _ ha t hmem
                      exact ⟨by rw [h]; decide, by rw [h]; decide⟩
                    · rw [if_neg h10] at hstep
                      by_cases h11 : isAlphaG c = true
                      · rw [if_pos h11] at hstep
                        rcases ha : identifier_arm c rest line with ⟨o, rs, k⟩
                        rw [ha] at hstep
                        simp only [Prod.mk.injEq] at hstep
                        obtain ⟨rfl, -⟩ := hstep
                        exact identifier_arm_no_qc _ _ _ _ _ _ ha t hmem
                      · rw [if_neg h11] at hstep
                        simp only [Prod.mk.injEq] at hstep
                        obtain ⟨rfl, -⟩ := hstep
                        simp only [List.mem_cons, List.not_mem_nil, or_false,
                          reduceCtorEq] at hmem

/-- The scan loop never emits a QuestionMark or Colon token, for any
    source, position and line. -/
theorem scanLoop_no_qc :
    ∀ (fuel : Nat) (src : List Char) (idx line : Nat) (t : Token),
      PossibleToken.ok t ∈ scanLoop fuel src idx line →
      t.token_type ≠ TokenType.QuestionMark ∧ t.token_type ≠ TokenType.Colon := by
  intro fuel
  induction fuel with
  | zero =>
    intro src idx line t h
    cases src with
    | nil =>
      simp only [scanLoop, List.mem_cons, List.not_mem_nil, or_false,
        PossibleToken.ok.injEq] at h
      subst h
      exact ⟨by simp [eofToken], by simp [eofToken]⟩
    | cons c rest =>
      simp only [scanLoop] at h
      exact absurd h (List.not_mem_nil _)
  | succ fuel ih =>
    intro src idx line t h
    cases src with
    | nil =>
      simp only [scanLoop, List.mem_cons, List.not_mem_nil, or_false,
        PossibleToken.ok.injEq] at h
      subst h
      exact ⟨by simp [eofToken], by simp [eofToken]⟩
    | cons c rest =>
      rcases hstep : scanStep c rest idx line with ⟨out, rest2, idx2, line2⟩
      simp only [scanLoop, hstep] at h
      rcases List.mem_append.mp h with h | h
      · exact scanStep_no_qc c rest idx line out rest2 idx2 line2 hstep t h
      · exact ih rest2 idx2 line2 t h

/-- Whether an expression tree contains no Ternary node at any depth. -/
def ternaryFree : Expression → Bool
  | Expression.Binary l _ r => ternaryFree l && ternaryFree r
  | Expression.Grouping e => ternaryFree e
  | Expression.Literal _ => true
  | Expression.Unary _ r => ternaryFree r
  | Expression.Ternary _ _ _ => false

/-- The binary-chain loop preserves ternary-freeness: if the accumulator
    and every result of the next-rule are ternary-free, so is the loop
    result. -/
theorem leftAssocLoop_ternaryFree (next : List Token → Nat → ParseOut)
    (tts : List TokenType) (ts : List Token)
    (hnext : ∀ (i : Nat) (e : Expression) (j : Nat),
      next ts i = Except.ok (e, j) → ternaryFree e = true) :
    ∀ (fuel : Nat) (acc : Expression) (i : Nat) (e : Expression) (j : Nat),
      ternaryFree acc = true →
      leftAssocLoop next tts ts fuel acc i = Except.ok (e, j) → ternaryFree e = true := by
  intro fuel
  induction fuel with
  | zero =>
    intro acc i e j hacc h
    simp [leftAssocLoop] at h
  | succ fuel ih =>
    intro acc i e j hacc h
    rcases hnm : nextMatchesT ts i tts with ⟨b, i1⟩
    cases b with
    | false =>
      simp only [leftAssocLoop, hnm] at h
      cases h
      exact hacc
    | true =>
      cases hn : next ts i1 with
      | error err =>
        simp only [leftAssocLoop, hnm, hn] at h
        cases h
      | ok ri =>
        rcases ri with ⟨r, i2⟩
        simp only [leftAssocLoop, hnm, hn] at h
        refine ih (Expression.Binary acc (getPreviousT ts i1) r) i2 e j ?_ h
        simp [ternaryFree, hacc, hnext i1 r i2 hn]

/-- A binary-chain rule yields a ternary-free tree whenever its next-rule
    does. -/
theorem create_left_assoc_ternaryFree (tts : List TokenType)
    (next : List Token → Nat → ParseOut) (ts : List Token)
    (hnext : ∀ (i : Nat) (e : Expression) (j : Nat),
      next ts i = Except.ok (e, j) → ternaryFree e = true)
    (fuel i : Nat) (e : Expression) (j : Nat)
    (h : create_left_associative_binary_expression tts next ts fuel i = Except.ok (e, j)) :
    ternaryFree e = true := by
  unfold create_left_associative_binary_expression at h
  cases hn : next ts i with
  | error err => rw [hn] at h; cases h
  | ok ei =>
    rcases ei with ⟨e0, i1⟩
    rw [hn] at h
    simp only [] at h
    exact leftAssocLoop_ternaryFree next tts ts hnext fuel e0 i1 e j (hnext i e0 i1 hn) h

/-- A token list with no QuestionMark token. -/
def noQuestionMark (ts : List Token) : Prop :=
  ∀ t ∈ ts, t.token_type ≠ TokenType.QuestionMark

/-- peek never sees a QuestionMark in a QuestionMark-free token list
    (out of range it sees the end-of-input default). -/
theorem peekT_no_qm (ts : List Token) (i : Nat) (h : noQuestionMark ts) :
    (peekT ts i).token_type ≠ TokenType.QuestionMark := by
  unfold peekT
  rw [List.getD_eq_getElem?_getD]
  cases hg : ts[i]? with
  | none => simp [eofToken]
  | some t =>
    simp only [hg, Option.getD_some]
    exact h t (List.getElem?_mem hg)

/-- In a QuestionMark-free token list, the ternary rule never finds its
    question mark. -/
theorem nextMatchesT_qm (ts : List Token) (i : Nat) (h : noQuestionMark ts) :
    nextMatchesT ts i [TokenType.QuestionMark] = (false, i) := by
  refine nextMatchesT_no ts i _ ?_
  intro tt htt
  simp only [List.mem_cons, List.not_mem_nil, or_false] at htt
  subst htt
  exact checkNextT_eq_false ts i _ (Or.inl (peekT_no_qm ts i h))

/-- On a QuestionMark-free token list, every parser rule that succeeds
    yields a ternary-free expression tree. -/
theorem parser_ternaryFree :
    ∀ (fuel : Nat) (ts : List Token), noQuestionMark ts →
      ∀ (i : Nat) (e : Expression) (j : Nat),
        (expressionF fuel ts i = Except.ok (e, j) → ternaryFree e = true)
        ∧ (commaF fuel ts i = Except.ok (e, j) → ternaryFree e = true)
        ∧ (ternaryF fuel ts i = Except.ok (e, j) → ternaryFree e = true)
        ∧ (equalityF fuel ts i = Except.ok (e, j) → ternaryFree e = true)
        ∧ (comparisonF fuel ts i = Except.ok (e, j) → ternaryFree e = true)
        ∧ (termF fuel ts i = Except.ok (e, j) → ternaryFree e = true)
        ∧ (factorF fuel ts i = Except.ok (e, j) → ternaryFree e = true)
        ∧ (unaryF fuel ts i = Except.ok (e, j) → ternaryFree e = true)
        ∧ (primaryF fuel ts i = Except.ok (e, j) → ternaryFree e = true) := by
  intro fuel
  induction fuel with
  | zero =>
    intro ts hts i e j
    refine ⟨?_, ?_, ?_, ?_, ?_, ?_, ?_, ?_, ?_⟩ <;>
      (intro h; exact Except.noConfusion h)
  | succ fuel ih =>
    intro ts hts i e j
    have IH := ih ts hts
    refine ⟨?_, ?_, ?_, ?_, ?_, ?_, ?_, ?_, ?_⟩
    · intro h
      rw [expressionF_succ] at h
      exact (IH i e j).2.1 h
    · intro h
      rw [commaF_succ] at h
      exact create_left_assoc_ternaryFree _ _ ts
        (fun i2 e2 j2 hh => (IH i2 e2 j2).2.2.1 hh) fuel i e j h
    · intro h
      cases he : equalityF fuel ts i with
      | error err =>
        simp only [ternaryF, he] at h
        exact Except.noConfusion h
      | ok p =>
        rcases p with ⟨e0, i1⟩
        have hqm := nextMatchesT_qm ts i1 hts
        simp only [ternaryF, he, hqm] at h
        cases h
        exact (IH i e j).2.2.2.1 he
    · intro h
      rw [equalityF_succ] at h
      exact create_left_assoc_ternaryFree _ _ ts
        (fun i2 e2 j2 hh => (IH i2 e2 j2).2.2.2.2.1 hh) fuel i e j h
    · intro h
      rw [comparisonF_succ] at h
      exact create_left_assoc_ternaryFree _ _ ts
        (fun i2 e2 j2 hh => (IH i2 e2 j2).2.2.2.2.2.1 hh) fuel i e j h
    · intro h
      rw [termF_succ] at h
      exact create_left_assoc_ternaryFree _ _ ts
        (fun i2 e2 j2 hh => (IH i2 e2 j2).2.2.2.2.2.2.1 hh) fuel i e j h
    · intro h
      rw [factorF_succ] at h
      exact create_left_assoc_ternaryFree _ _ ts
        (fun i2 e2 j2 hh => (IH i2 e2 j2).2.2.2.2.2.2.2.1 hh) fuel i e j h
    · intro h
      rcases hnm : nextMatchesT ts i [TokenType.Bang, TokenType.Minus] with ⟨b, i1⟩
      cases b with
      | true =>
        cases hu : unaryF fuel ts i1 with
        | error err =>
          simp only [unaryF, hnm, hu] at h
          exact Except.noConfusion h
        | ok p =>
          rcases p with ⟨r, i2⟩
          simp only [unaryF, hnm, hu] at h
          cases h
          simp only [ternaryFree]
          exact (IH i1 r j).2.2.2.2.2.2.2.1 hu
      | false =>
        simp only [unaryF, hnm] at h
        exact (IH i e j).2.2.2.2.2.2.2.2 h
    · intro h
      simp only [primaryF] at h
      cases hp : (peekT ts i).token_type <;> simp only [hp] at h
      all_goals first
        | exact Except.noConfusion h
        | (cases h; rfl)
        | skip
      · cases hex : expressionF fuel ts (i + 1) with
        | error err =>
          simp only [hex] at h
          exact Except.noConfusion h
        | ok p =>
          rcases p with ⟨e0, i1⟩
          simp only [hex] at h
          cases hc : consumeT ts i1 TokenType.RightParen
              "Expect \x27)\x27 after expression." with
          | error err =>
            simp only [hc] at h
            exact Except.noConfusion h
          | ok i2 =>
            simp only [hc] at h
            cases h
            simp only [ternaryFree]
            exact (IH (i + 1) e0 i1).1 hex
      · cases hn : parseNumberLit (peekT ts i).lexeme with
        | some q =>
          simp only [hn] at h
          cases h
          rfl
        | none =>
          simp only [hn] at h
          exact Except.noConfusion h

/-- The token projection of a scan result with no QuestionMark tokens is
    QuestionMark-free. -/
theorem okTokens_no_qm (l : List PossibleToken)
    (h : ∀ t : Token, PossibleToken.ok t ∈ l → t.token_type ≠ TokenType.QuestionMark) :
    noQuestionMark (okTokens l) := by
  intro t ht
  unfold okTokens at ht
  rcases List.mem_filterMap.mp ht with ⟨pt, hpt, hf⟩
  cases pt with
  | ok t2 =>
    simp only [Option.some.injEq] at hf
    subst hf
    exact h _ hpt
  | err e =>
    simp at hf

/-- Claim C2: the scanner never produces a QuestionMark or Colon token
    for any source; a question mark or colon character reaching the
    scanner match falls through to the invalid-token arm and yields a
    lexical error instead of a token; and consequently the parse of any
    scanned token sequence never contains a Ternary node. -/
theorem C2_no_question_mark_colon_tokens :
    (∀ (fuel : Nat) (src : List Char) (idx line : Nat) (t : Token),
      PossibleToken.ok t ∈ scanLoop fuel src idx line →
      t.token_type ≠ TokenType.QuestionMark ∧ t.token_type ≠ TokenType.Colon)
    ∧ (∀ (fuel : Nat) (rest : List Char) (idx line : Nat),
      scanLoop (fuel + 1) ('?' :: rest) idx line =
        PossibleToken.err ⟨line, "", invalidTokenMsg line idx '?'⟩
          :: scanLoop fuel rest (idx + 1) line)
    ∧ (∀ (fuel : Nat) (rest : List Char) (idx line : Nat),
      scanLoop (fuel + 1) (':' :: rest) idx line =
        PossibleToken.err ⟨line, "", invalidTokenMsg line idx ':'⟩
          :: scanLoop fuel rest (idx + 1) line)
    ∧ (∀ (src : String) (e : Expression) (j : Nat),
      parse (okTokens (scanTokens src)) = Except.ok (e, j) → ternaryFree e = true) := by
  refine ⟨scanLoop_no_qc, ?_, ?_, ?_⟩
  · intro fuel rest idx line
    rfl
  · intro fuel rest idx line
    rfl
  · intro src e j h
    have hqm := okTokens_no_qm (scanTokens src)
      (fun t ht => (scanLoop_no_qc _ _ _ _ t ht).1)
    exact (parser_ternaryFree (parseFuel (okTokens (scanTokens src)))
      (okTokens (scanTokens src)) hqm 0 e j).1 h

/-- Witness for C2: the identifier token of the source x is not a
    QuestionMark or Colon, and the parse of the scanned source 1 yields a
    ternary-free tree. -/
theorem C2_witness :
    ((⟨TokenType.Identifier, "x", some (Literal.Identifier "x"), 0⟩ : Token).token_type ≠
        TokenType.QuestionMark
      ∧ (⟨TokenType.Identifier, "x", some (Literal.Identifier "x"), 0⟩ : Token).token_type ≠
        TokenType.Colon)
    ∧ ternaryFree (Expression.Literal (some (Literal.Number 1))) = true :=
  ⟨C2_no_question_mark_colon_tokens.1 2 ['x'] 0 0
      ⟨TokenType.Identifier, "x", some (Literal.Identifier "x"), 0⟩ (by decide),
   C2_no_question_mark_colon_tokens.2.2.2 "1" (Expression.Literal (some (Literal.Number 1))) 1
      (by decide)⟩
